import Mathlib

/-!
# Battle core of the idle/gacha card RPG: a shallow embedding

This file embeds the turn-based battle simulator (`src/battle/BattleLogic.ts`
together with its data types, skill table schema and buff ledger) as
executable Lean definitions, and proves the testable properties stated in
the specification against that embedding.

Modelling conventions:
* JavaScript numbers that only ever hold non-negative integers (hp, atk,
  spd, shield pools, cooldowns, stack counts, statistics counters) are
  `Nat`; `Math.max(0, x - y)` on such values is `Nat` subtraction.
* Numbers that can be fractional (skill ratios, damage variance, the rng
  output, buff duration payloads) are `ℚ`; `Math.floor` is `Int.floor`.
* The injected random-number source `rng : () => number` is a stream
  `ℕ → ℚ` together with a cursor `rngIdx` in the battle state; each call
  of `this.rng()` reads the stream at the cursor and advances it.
* JS `Map`s are association lists with `Map.set`/`Map.delete` semantics
  (`alSet` replaces in place, `alRemove` drops the entry).
* The event emitter appends to an ordered log carried in the state.
* The skill table `SKILL_MAP` is loaded from external JSON in the source
  (`src/configs/skills.json`, not part of the tree); it is a parameter of
  the model, typed by the schema in `src/battle/SkillConfig.ts`.
-/

namespace Battle

/-- Side of the battle, `'A' | 'B'` in `BattleTypes.ts`. -/
inductive Side where
  | A
  | B
deriving DecidableEq, Repr

/-- Battle outcome, `Side | 'Draw'` in `BattleTypes.ts`. -/
inductive Winner where
  | A
  | B
  | Draw
deriving DecidableEq, Repr

/-- `FighterSnapshot` from `BattleTypes.ts` (the phase-5 version carrying
`heroId?`/`heroClass?`). -/
structure Fighter where
  id : String
  name : String
  side : Side
  hp : Nat
  maxHp : Nat
  atk : Nat
  spd : Nat
  heroId : Option String
  heroClass : Option String
  skills : List String
  buffs : List String
deriving DecidableEq, Repr

/-- `BattleSetup` from `BattleTypes.ts`. -/
structure BattleSetup where
  teamA : List Fighter
  teamB : List Fighter
  seed : Option Nat
deriving DecidableEq, Repr

/-- `UnitStats` from `BattleTypes.ts`. -/
structure UnitStats where
  unitId : String
  heroId : Option String
  heroClass : Option String
  damageDealt : Nat
  damageTaken : Nat
  healingDone : Nat
  shieldsApplied : Nat
  kills : Nat
  skillCasts : Nat
  skillCastsById : List (String × Nat)
deriving DecidableEq, Repr

/-- `BattleEvent` from `BattleTypes.ts`. -/
inductive BattleEvent where
  | battleStart (teamA teamB : List Fighter)
  | roundStart (round : Nat)
  | actorTurn (round : Nat) (actorId : String)
  | heal (sourceId targetId : String) (amount targetHp targetMaxHp : Nat)
  | damage (sourceId targetId : String) (amount targetHp targetMaxHp : Nat)
  | buffAdd (sourceId targetId buffId : String) (stackCount : Nat)
  | buffRemove (targetId buffId : String)
  | dead (targetId : String)
  | battleEnd (winner : Winner)
deriving DecidableEq, Repr

/-- `SkillKind` from `SkillConfig.ts`. -/
inductive SkillKind where
  | active
  | passive
deriving DecidableEq, Repr

/-- `SkillTarget` from `SkillConfig.ts`. -/
inductive SkillTarget where
  | self
  | ally_single
  | enemy_single
  | enemy_aoe
deriving DecidableEq, Repr

/-- `SkillEffect` from `SkillConfig.ts`. -/
inductive SkillEffect where
  | damage
  | heal
  | shield
  | apply_buff
  | apply_dot
deriving DecidableEq, Repr

/-- The `params` record of a `SkillConfig` (`Record<string, number | string>`
in the source), typed by the keys the battle logic actually reads. -/
structure SkillParams where
  ratio : Option ℚ
  executeThreshold : Option ℚ
  executeMultiplier : Option ℚ
  duration : Option ℚ
  buffId : Option String
  shieldRatio : Option ℚ
  maxTargets : Option Nat
deriving DecidableEq, Repr

/-- `SkillConfig` from `SkillConfig.ts`. -/
structure Skill where
  id : String
  name : String
  kind : SkillKind
  cooldown : Option ℚ
  target : SkillTarget
  effect : SkillEffect
  params : Option SkillParams
deriving DecidableEq, Repr

/-- A buff definition from the `BuffRegistry` (`Buff` in `SkillTypes.ts`). -/
structure BuffDef where
  id : String
  name : String
  maxStacks : Option Nat
  durationRounds : Option ℚ
deriving DecidableEq, Repr

/-- Modelled from the spec: the current `BuffInstance` record of the battle
buff ledger.  The current `BuffSystem.ts` is not present in the tree (only an
older placeholder without `sourceId`/`data` survives, concatenated into
`game/assetManifest.ts`); the spec gives the instance shape as
`{ buffId, stacks, expiresRound?, sourceId?, data? }`, where the only `data`
key the battle logic reads is `damagePerRound`. -/
structure BuffInst where
  id : String
  /-- `stacks` in the source; renamed, `stacks` is a reserved token here. -/
  stackCount : Nat
  expiresRound : Option ℚ
  sourceId : Option String
  data : List (String × ℚ)
deriving DecidableEq, Repr

/-! ## Association-list maps (JS `Map` semantics) -/

/-- First value stored under key `k` (JS `Map.get`). -/
def alGet {α : Type} (k : String) : List (String × α) → Option α
  | [] => none
  | (k', v) :: rest => if k' = k then some v else alGet k rest

/-- JS `Map.set`: replace in place if the key exists, else append. -/
def alSet {α : Type} (k : String) (v : α) : List (String × α) → List (String × α)
  | [] => [(k, v)]
  | (k', v') :: rest => if k' = k then (k, v) :: rest else (k', v') :: alSet k v rest

/-- Apply `g` to the value stored under `k`; no-op when absent. -/
def alUpdate {α : Type} (k : String) (g : α → α) : List (String × α) → List (String × α)
  | [] => []
  | (k', v) :: rest => if k' = k then (k', g v) :: rest else (k', v) :: alUpdate k g rest

/-- JS `Map.delete`.  A JS `Map` never holds a key twice, so on every list
that represents a `Map` state dropping all occurrences coincides with
dropping the first. -/
def alRemove {α : Type} (k : String) (l : List (String × α)) : List (String × α) :=
  l.filter (fun e => !(e.1 = k : Bool))

/-! ## Battle state and parameters -/

/-- The mutable state of a `BattleLogic` instance, plus the emitted event log
and the rng cursor. -/
structure BattleState where
  round : Nat
  over : Bool
  teamA : List Fighter
  teamB : List Fighter
  statsById : List (String × UnitStats)
  shieldById : List (String × Nat)
  skillCooldowns : List (String × List (String × Nat))
  buffMap : List (String × List BuffInst)
  events : List BattleEvent
  rngIdx : Nat
deriving Repr

/-- External inputs fixed for a battle: the skill table (`SKILL_MAP`), the
injected rng stream, and the damage-variance bounds from the game config
(`BATTLE.damageVarianceMin/Max`; `game/config.ts` is not in the tree, the
spec gives the defaults as approximately 0.85 and 1.15). -/
structure BattleParams where
  skillMap : List (String × Skill)
  rng : Nat → ℚ
  damageVarianceMin : ℚ
  damageVarianceMax : ℚ

/-- The buff registry populated by `registerDefaultBuffs` in the
`BattleLogic` constructor: taunt for 2 rounds, burn for 3 rounds. -/
def buffRegistry : List (String × BuffDef) :=
  [("taunt", ⟨"taunt", "嘲讽", none, some 2⟩),
   ("burn", ⟨"burn", "灼烧", none, some 3⟩)]

/-- Append an event to the log (`this.emitter.emit(e)`). -/
def emitE (st : BattleState) (e : BattleEvent) : BattleState :=
  { st with events := st.events ++ [e] }

/-- `Math.max(1, Math.floor(q))` as a natural number. -/
def jsFloorAmount (q : ℚ) : Nat := (max 1 ⌊q⌋).toNat

/-- HP fraction `f.hp / f.maxHp` (as in the targeting heuristics). -/
def hpFrac (f : Fighter) : ℚ := (f.hp : ℚ) / (f.maxHp : ℚ)

/-- `findFighter`: first fighter with the given id in `[...teamA, ...teamB]`. -/
def findFighter (st : BattleState) (id : String) : Option Fighter :=
  (st.teamA ++ st.teamB).find? (fun f => f.id = id)

/-- Apply `g` to the first list element satisfying `p`. -/
def mapFirst {α : Type} (p : α → Bool) (g : α → α) : List α → List α
  | [] => []
  | x :: xs => if p x then g x :: xs else x :: mapFirst p g xs

/-- Mutate the hp of the fighter the source aliases through `findFighter`:
the first id match in `teamA` if any, else the first in `teamB`. -/
def mapHpFirst (st : BattleState) (id : String) (g : Nat → Nat) : BattleState :=
  if st.teamA.any (fun f => f.id = id) then
    { st with teamA := mapFirst (fun f => f.id = id) (fun f => { f with hp := g f.hp }) st.teamA }
  else
    { st with teamB := mapFirst (fun f => f.id = id) (fun f => { f with hp := g f.hp }) st.teamB }

/-- Update the `UnitStats` entry for `id` (no-op when missing, matching the
`if (stats)` guards in the source). -/
def statUpdate (st : BattleState) (id : String) (g : UnitStats → UnitStats) : BattleState :=
  { st with statsById := alUpdate id g st.statsById }

/-- `BuffSystem.getBuffs`. -/
def getBuffs (st : BattleState) (fighterId : String) : List BuffInst :=
  (alGet fighterId st.buffMap).getD []

/-- `BattleLogic.hasBuff`. -/
def hasBuff (st : BattleState) (targetId buffId : String) : Bool :=
  (getBuffs st targetId).any (fun b => b.id = buffId)

/-- Modelled from the spec: the current `BuffSystem.addBuff` (the file is
missing from the tree; the surviving placeholder lacks the
`{ durationRounds?, data? }` options argument the battle logic passes and the
`sourceId`/`data` fields the DOT tick reads).  Per the spec: stacking is
additive up to the per-definition cap (default 99), re-application refreshes
`expiresRound`; the options duration overrides the registry duration; a new
instance records the applying combatant as `sourceId` and carries the `data`
payload; an instance gets an `expiresRound` of `currentRound + duration` only
when some duration is configured. -/
def buffSysAddBuff (st : BattleState) (sourceId targetId buffId : String)
    (stackCount : Nat) (currentRound : Nat) (durationRounds : Option ℚ)
    (data : List (String × ℚ)) : BattleState :=
  let defn := alGet buffId buffRegistry
  let dur : Option ℚ := durationRounds.orElse (fun _ => defn.bind (fun d => d.durationRounds))
  let expiry : Option ℚ := dur.map (fun d => (currentRound : ℚ) + d)
  let list := (alGet targetId st.buffMap).getD []
  let list' :=
    if list.any (fun b => b.id = buffId) then
      mapFirst (fun b => b.id = buffId)
        (fun b =>
          let maxS := (defn.bind (fun d => d.maxStacks)).getD 99
          let b' := { b with stackCount := min maxS (b.stackCount + stackCount) }
          if dur.isSome then { b' with expiresRound := expiry } else b')
        list
    else
      list ++ [{ id := buffId, stackCount := max 1 stackCount,
                 expiresRound := expiry, sourceId := some sourceId, data := data }]
  { st with buffMap := alSet targetId list' st.buffMap }

/-- Modelled from the spec: `BuffSystem.onRoundStart` expiry pass — an
instance with `expiresRound <= currentRound` is removed, one with no
`expiresRound` is permanent. -/
def buffsOnRoundStart (st : BattleState) (round : Nat) : BattleState :=
  { st with
    buffMap := st.buffMap.map (fun kv =>
      (kv.1, kv.2.filter (fun b =>
        match b.expiresRound with
        | none => true
        | some e => (round : ℚ) < e))) }

/-- Modelled from the spec: `BuffSystem.init` — each fighter starts with one
single-stack, permanent, source-less instance per listed initial buff id. -/
def buffSysInit (fighters : List Fighter) : List (String × List BuffInst) :=
  fighters.foldl
    (fun m f => alSet f.id (f.buffs.map (fun bid =>
      { id := bid, stackCount := 1, expiresRound := none, sourceId := none, data := [] })) m)
    []

/-! ## Effect application engine (`BattleLogic.dealDamage` etc.) -/

/-- `BattleLogic.dealDamage`.  All call sites pass an integer amount, so the
parameter is `Nat` and the source's `Math.max(1, Math.floor(amount))` is
`max 1 amount`. -/
def dealDamage (st : BattleState) (sourceId targetId : String) (amount : Nat) : BattleState :=
  match findFighter st targetId with
  | none => st
  | some target =>
    if target.hp = 0 then st else
    let raw := max 1 amount
    let shield := (alGet targetId st.shieldById).getD 0
    let absorbed := min shield raw
    let remaining := raw - absorbed
    let st1 :=
      if 0 < shield then
        if 0 < shield - absorbed then
          { st with shieldById := alSet targetId (shield - absorbed) st.shieldById }
        else
          { st with shieldById := alRemove targetId st.shieldById }
      else st
    let newHp := target.hp - remaining
    let st2 := if 0 < remaining then mapHpFirst st1 targetId (fun h => h - remaining) else st1
    let st3 := statUpdate st2 sourceId (fun u => { u with damageDealt := u.damageDealt + raw })
    let st4 := statUpdate st3 targetId (fun u => { u with damageTaken := u.damageTaken + remaining })
    let st5 :=
      if 0 < remaining then
        emitE st4 (BattleEvent.damage sourceId targetId remaining newHp target.maxHp)
      else st4
    if newHp = 0 then
      emitE (statUpdate st5 sourceId (fun u => { u with kills := u.kills + 1 }))
        (BattleEvent.dead targetId)
    else st5

/-- `BattleLogic.heal`. -/
def heal (st : BattleState) (sourceId targetId : String) (amount : Nat) : BattleState :=
  match findFighter st targetId with
  | none => st
  | some target =>
    if target.hp = 0 then st else
    let a := max 1 amount
    let newHp := min target.maxHp (target.hp + a)
    let st1 := mapHpFirst st targetId (fun h => min target.maxHp (h + a))
    let st2 := statUpdate st1 sourceId (fun u => { u with healingDone := u.healingDone + a })
    emitE st2 (BattleEvent.heal sourceId targetId a newHp target.maxHp)

/-- `BattleLogic.applyShield`. -/
def applyShield (st : BattleState) (sourceId targetId : String) (amount : Nat) : BattleState :=
  match findFighter st targetId with
  | none => st
  | some target =>
    if target.hp = 0 then st else
    let a := max 1 amount
    let st1 := { st with
      shieldById := alSet targetId ((alGet targetId st.shieldById).getD 0 + a) st.shieldById }
    statUpdate st1 sourceId (fun u => { u with shieldsApplied := u.shieldsApplied + a })

/-- `BattleLogic.addBuff`: delegates to the buff ledger (at the current round
number) and emits `buffAdd` — with no liveness check on the target. -/
def addBuff (st : BattleState) (sourceId targetId buffId : String)
    (stackCount : Nat) (durationRounds : Option ℚ) (data : List (String × ℚ)) : BattleState :=
  emitE (buffSysAddBuff st sourceId targetId buffId stackCount st.round durationRounds data)
    (BattleEvent.buffAdd sourceId targetId buffId stackCount)

/-! ## Targeting and selection policy -/

/-- Stable insertion into a list sorted by the boolean preorder `le`;
together with `ssort` this reproduces the stable JS `Array.sort`. -/
def sinsert {α : Type} (le : α → α → Bool) (x : α) : List α → List α
  | [] => [x]
  | y :: ys => if le x y then x :: y :: ys else y :: sinsert le x ys

/-- Stable sort by the boolean preorder `le` (JS `Array.sort` with a
consistent comparator `c`, where `le a b` means `c(a,b) <= 0`). -/
def ssort {α : Type} (le : α → α → Bool) : List α → List α
  | [] => []
  | x :: xs => sinsert le x (ssort le xs)

/-- Comparator of `pickLowestHp`: ascending HP fraction, ties by id. -/
def lowestHpLe (a b : Fighter) : Bool :=
  decide (hpFrac a < hpFrac b) || (decide (hpFrac a = hpFrac b) && decide (a.id ≤ b.id))

/-- `BattleLogic.pickLowestHp` (the callers guarantee a non-empty list; the
embedding returns an `Option` instead of asserting). -/
def pickLowestHp (list : List Fighter) : Option Fighter :=
  (ssort lowestHpLe list).head?

/-- `BattleLogic.pickFrontTarget`. -/
def pickFrontTarget (alive fullTeam : List Fighter) : Option Fighter :=
  let frontline := (fullTeam.take 2).filter (fun t => 0 < t.hp)
  if frontline.length > 0 then frontline.head? else alive.head?

/-- `BattleLogic.orderByFrontline`: frontline (first two roster slots) first,
ties by id, stable. -/
def orderByFrontline (alive fullTeam : List Fighter) : List Fighter :=
  let frontIds := (fullTeam.take 2).map (fun t => t.id)
  ssort
    (fun a b =>
      let af : Nat := if frontIds.contains a.id then 0 else 1
      let bf : Nat := if frontIds.contains b.id then 0 else 1
      if af ≠ bf then decide (af < bf) else decide (a.id ≤ b.id))
    alive

/-- `BattleLogic.selectTarget`: living enemies only; a living taunt carrier
(first in roster order) overrides every archetype heuristic. -/
def selectTarget (st : BattleState) (actor : Fighter) (enemyTeam : List Fighter) :
    Option Fighter :=
  let alive := enemyTeam.filter (fun t => 0 < t.hp)
  if alive.isEmpty then none else
  match alive.find? (fun t => hasBuff st t.id "taunt") with
  | some taunt => some taunt
  | none =>
    match actor.heroClass with
    | some "assassin" => pickLowestHp alive
    | some "warrior" => pickFrontTarget alive enemyTeam
    | some "tank" => pickFrontTarget alive enemyTeam
    | some "mage" => (pickFrontTarget alive enemyTeam).orElse (fun _ => alive.head?)
    | some "support" => (pickFrontTarget alive enemyTeam).orElse (fun _ => alive.head?)
    | _ => alive.head?

/-- `BattleLogic.selectHealTarget` (the `actor` parameter is unused in the
source and dropped here). -/
def selectHealTarget (allyTeam : List Fighter) : Option Fighter :=
  let candidates := allyTeam.filter (fun t => 0 < t.hp && t.hp < t.maxHp)
  if candidates.isEmpty then none else pickLowestHp candidates

/-- `BattleLogic.selectAoeTargets`: taunt carriers drafted first, then the
archetype ordering, deduplicated, truncated to `maxTargets` when given. -/
def selectAoeTargets (st : BattleState) (actor : Fighter) (enemyTeam : List Fighter)
    (maxTargets : Option Nat) : List Fighter :=
  let alive := enemyTeam.filter (fun t => 0 < t.hp)
  if alive.isEmpty then [] else
  let taunts := alive.filter (fun t => hasBuff st t.id "taunt")
  let base : List Fighter :=
    taunts.foldl (fun acc t => if acc.contains t then acc else acc ++ [t]) []
  match maxTargets with
  | some m =>
    if base.length ≥ m then base.take m
    else
      let ordered :=
        if actor.heroClass = some "assassin" then
          ssort (fun a b => decide (hpFrac a ≤ hpFrac b)) alive
        else orderByFrontline alive enemyTeam
      let filled := ordered.foldl
        (fun acc t => if acc.contains t || acc.length ≥ m then acc else acc ++ [t]) base
      filled.take m
  | none =>
    let ordered :=
      if actor.heroClass = some "assassin" then
        ssort (fun a b => decide (hpFrac a ≤ hpFrac b)) alive
      else orderByFrontline alive enemyTeam
    ordered.foldl (fun acc t => if acc.contains t then acc else acc ++ [t]) base

/-! ## Skill resolver -/

/-- `BattleLogic.getCooldown`. -/
def getCooldown (st : BattleState) (actorId skillId : String) : Nat :=
  ((alGet actorId st.skillCooldowns).bind (fun m => alGet skillId m)).getD 0

/-- `BattleLogic.setCooldown`. -/
def setCooldown (st : BattleState) (actorId skillId : String) (value : Nat) : BattleState :=
  let m := (alGet actorId st.skillCooldowns).getD []
  { st with skillCooldowns := alSet actorId (alSet skillId value m) st.skillCooldowns }

/-- `BattleLogic.reduceCooldowns`: every stored cooldown drops by 1, floored
at 0 (`Nat` subtraction). -/
def reduceCooldowns (st : BattleState) : BattleState :=
  { st with
    skillCooldowns := st.skillCooldowns.map (fun kv => (kv.1, kv.2.map (fun e => (e.1, e.2 - 1)))) }

/-- `BattleLogic.recordSkillCast`. -/
def recordSkillCast (st : BattleState) (sourceId skillId : String) : BattleState :=
  statUpdate st sourceId (fun u =>
    { u with
      skillCasts := u.skillCasts + 1
      skillCastsById := alSet skillId ((alGet skillId u.skillCastsById).getD 0 + 1) u.skillCastsById })

/-- The enemy team as read from the actor's `side` field. -/
def enemyTeamOf (st : BattleState) (actor : Fighter) : List Fighter :=
  if actor.side = Side.A then st.teamB else st.teamA

/-- The ally team as read from the actor's `side` field. -/
def allyTeamOf (st : BattleState) (actor : Fighter) : List Fighter :=
  if actor.side = Side.A then st.teamA else st.teamB

/-- `BattleLogic.pickSkill`: inspects only the first entry of the actor's
skill list; returns it only when it is a known active skill, off cooldown,
and the archetype precondition holds. -/
def pickSkill (p : BattleParams) (st : BattleState) (actor : Fighter) : Option String :=
  match actor.skills with
  | [] => none
  | skillId :: _ =>
    if skillId = "" then none else
    match alGet skillId p.skillMap with
    | none => none
    | some skill =>
      if skill.kind ≠ SkillKind.active then none else
      if 0 < getCooldown st actor.id skillId then none else
      let aliveEnemies := (enemyTeamOf st actor).filter (fun t => 0 < t.hp)
      let aliveAllies := (allyTeamOf st actor).filter (fun t => 0 < t.hp)
      match actor.heroClass with
      | some "support" =>
        if (selectHealTarget aliveAllies).isSome then some skillId else none
      | some "tank" =>
        if hasBuff st actor.id "taunt" then none else some skillId
      | some "assassin" =>
        let threshold := ((skill.params.bind (fun q => q.executeThreshold)).getD (7 / 20) : ℚ)
        if aliveEnemies.any (fun t => 0 < t.hp && decide (hpFrac t ≤ threshold)) then
          some skillId
        else none
      | some "warrior" => if 2 ≤ aliveEnemies.length then some skillId else none
      | some "mage" => if 2 ≤ aliveEnemies.length then some skillId else none
      | _ => some skillId

/-- `BattleLogic.resolveSkillTargets`. -/
def resolveSkillTargets (st : BattleState) (actor : Fighter) (skill : Skill) :
    List Fighter :=
  let allyTeam := allyTeamOf st actor
  let enemyTeam := enemyTeamOf st actor
  match skill.target with
  | SkillTarget.self => [actor]
  | SkillTarget.ally_single =>
    match selectHealTarget (allyTeam.filter (fun t => 0 < t.hp)) with
    | some t => [t]
    | none => []
  | SkillTarget.enemy_single =>
    match selectTarget st actor enemyTeam with
    | some t => [t]
    | none => []
  | SkillTarget.enemy_aoe =>
    let maxTargets := ((skill.params.bind (fun q => q.maxTargets)).getD 0 : Nat)
    selectAoeTargets st actor enemyTeam (if 0 < maxTargets then some maxTargets else none)

/-- The `damagePerRound` payload the `apply_dot` branch of `castSkill`
stores: `Math.max(1, Math.floor(actor.atk * ratio))`. -/
def dotDamagePerRound (atk : Nat) (ratio : ℚ) : Nat := jsFloorAmount ((atk : ℚ) * ratio)

/-- `BattleLogic.castSkill`: `none` when target resolution yields zero
targets (cast abandoned, no state change); otherwise records the cast, sets
the cooldown, and applies the skill's effect once per resolved target. -/
def castSkill (st : BattleState) (actor : Fighter) (skill : Skill) : Option BattleState :=
  let targets := resolveSkillTargets st actor skill
  if targets.isEmpty then none else
  some (
    let st1 := recordSkillCast st actor.id skill.id
    let cooldown := (max 0 ⌊(skill.cooldown.getD 0 : ℚ)⌋).toNat
    let st2 := if 0 < cooldown then setCooldown st1 actor.id skill.id cooldown else st1
    match skill.effect with
    | SkillEffect.damage =>
      let baseRatio := (skill.params.bind (fun q => q.ratio)).getD 1
      let threshold := (skill.params.bind (fun q => q.executeThreshold)).getD (-1)
      let executeMultiplier := (skill.params.bind (fun q => q.executeMultiplier)).getD 1
      targets.foldl
        (fun s target =>
          let ratio :=
            if 0 < threshold ∧ hpFrac target ≤ threshold then baseRatio * executeMultiplier
            else baseRatio
          dealDamage s actor.id target.id (jsFloorAmount ((actor.atk : ℚ) * ratio)))
        st2
    | SkillEffect.heal =>
      let ratio := (skill.params.bind (fun q => q.ratio)).getD (1 / 4)
      targets.foldl
        (fun s target => heal s actor.id target.id (jsFloorAmount ((target.maxHp : ℚ) * ratio)))
        st2
    | SkillEffect.shield =>
      let ratio := (skill.params.bind (fun q => q.ratio)).getD (1 / 5)
      targets.foldl
        (fun s target =>
          applyShield s actor.id target.id (jsFloorAmount ((target.maxHp : ℚ) * ratio)))
        st2
    | SkillEffect.apply_buff =>
      let buffId := (skill.params.bind (fun q => q.buffId)).getD ""
      let duration := (skill.params.bind (fun q => q.duration)).getD 0
      let st3 :=
        if buffId ≠ "" then
          targets.foldl
            (fun s target =>
              addBuff s actor.id target.id buffId 1
                (if 0 < duration then some duration else none) [])
            st2
        else st2
      let shieldRatio := (skill.params.bind (fun q => q.shieldRatio)).getD 0
      if 0 < shieldRatio then
        targets.foldl
          (fun s target =>
            applyShield s actor.id target.id (jsFloorAmount ((target.maxHp : ℚ) * shieldRatio)))
          st3
      else st3
    | SkillEffect.apply_dot =>
      let ratio := (skill.params.bind (fun q => q.ratio)).getD (2 / 5)
      let duration := (skill.params.bind (fun q => q.duration)).getD 2
      let buffId := (skill.params.bind (fun q => q.buffId)).getD "burn"
      targets.foldl
        (fun s target =>
          addBuff s actor.id target.id buffId 1 (some (duration + 1))
            [("damagePerRound", (dotDamagePerRound actor.atk ratio : ℚ))])
        st2)

/-- `BattleLogic.performBasicAttack`: pick a target, draw the variance from
the rng stream, deal `max(1, floor(atk * variance))`. -/
def performBasicAttack (p : BattleParams) (st : BattleState) (actor : Fighter) : BattleState :=
  match selectTarget st actor (enemyTeamOf st actor) with
  | none => st
  | some target =>
    let variance := p.damageVarianceMin +
      p.rng st.rngIdx * (p.damageVarianceMax - p.damageVarianceMin)
    let st1 := { st with rngIdx := st.rngIdx + 1 }
    dealDamage st1 actor.id target.id (jsFloorAmount ((actor.atk : ℚ) * variance))

/-- `BattleLogic.performAction`: try the picked skill, else basic attack;
an abandoned cast (zero targets) falls back to the basic attack. -/
def performAction (p : BattleParams) (st : BattleState) (actor : Fighter) : BattleState :=
  match pickSkill p st actor with
  | some skillId =>
    match alGet skillId p.skillMap with
    | some skill =>
      match castSkill st actor skill with
      | some st' => st'
      | none => performBasicAttack p st actor
    | none => performBasicAttack p st actor
  | none => performBasicAttack p st actor

/-! ## Turn scheduler -/

/-- `BattleLogic.finish`. -/
def finish (st : BattleState) (winner : Winner) : BattleState :=
  if st.over then st else emitE { st with over := true } (BattleEvent.battleEnd winner)

/-- `BattleLogic.checkBattleEnd`. -/
def checkBattleEnd (st : BattleState) : BattleState :=
  let aAlive := st.teamA.any (fun f => 0 < f.hp)
  let bAlive := st.teamB.any (fun f => 0 < f.hp)
  if aAlive && bAlive then st
  else if aAlive && !bAlive then finish st Winner.A
  else if !aAlive && bAlive then finish st Winner.B
  else finish st Winner.Draw

/-- The damage applications the DOT tick performs, computed from the state
at the start of the tick (the tick never mutates the buff ledger, so the
just-in-time computation of the source coincides with this list):
for every living fighter, for every `burn` instance it carries, a
`(sourceId, targetId, amount)` triple with the instance's source (the victim
itself when none is recorded) and `max(1, floor(damagePerRound)) * max(1,
stacks)` damage. -/
def dotApplications (st : BattleState) : List (String × String × Nat) :=
  ((st.teamA ++ st.teamB).filter (fun f => 0 < f.hp)).flatMap (fun f =>
    (getBuffs st f.id).filterMap (fun buff =>
      if buff.id = "burn" then
        let sourceId := buff.sourceId.getD f.id
        let perRound := jsFloorAmount ((alGet "damagePerRound" buff.data).getD 0)
        let total := perRound * max 1 buff.stackCount
        if 0 < total then some (sourceId, f.id, total) else none
      else none))

/-- `BattleLogic.tickDots`. -/
def tickDots (st : BattleState) : BattleState :=
  (dotApplications st).foldl (fun s t => dealDamage s t.1 t.2.1 t.2.2) st

/-- A by-position reference to a fighter object: which team array it lives
in and its index there (the JS actor loop holds object references). -/
def refGet (st : BattleState) (r : Side × Nat) : Option Fighter :=
  match r.1 with
  | Side.A => st.teamA[r.2]?
  | Side.B => st.teamB[r.2]?

/-- References to all living fighters, team A first (`getAllAlive`). -/
def aliveRefs (st : BattleState) : List (Side × Nat) :=
  ((List.range st.teamA.length).filter (fun i =>
      match st.teamA[i]? with | some f => 0 < f.hp | none => false)).map (fun i => (Side.A, i))
  ++ ((List.range st.teamB.length).filter (fun i =>
      match st.teamB[i]? with | some f => 0 < f.hp | none => false)).map (fun i => (Side.B, i))

/-- Acting order: descending speed, ties by ascending id (the JS comparator
`b.spd - a.spd || a.id.localeCompare(b.id)`, under a stable sort). -/
def actorOrder (st : BattleState) : List (Side × Nat) :=
  ssort
    (fun r1 r2 =>
      match refGet st r1, refGet st r2 with
      | some a, some b =>
        decide (b.spd < a.spd) || (decide (a.spd = b.spd) && decide (a.id ≤ b.id))
      | _, _ => true)
    (aliveRefs st)

/-- One iteration of the per-round actor loop: skip once the battle is over
or the actor has died earlier in the round, else emit `actorTurn`, resolve
the action and run the battle-end check. -/
def actStep (p : BattleParams) (st : BattleState) (r : Side × Nat) : BattleState :=
  if st.over then st else
  match refGet st r with
  | none => st
  | some actor =>
    if actor.hp = 0 then st else
    checkBattleEnd (performAction p (emitE st (BattleEvent.actorTurn st.round actor.id)) actor)

/-- `BattleLogic.stepRound`. -/
def stepRound (p : BattleParams) (st : BattleState) : BattleState :=
  if st.over then st else
  let st1 := emitE { st with round := st.round + 1 } (BattleEvent.roundStart (st.round + 1))
  let st2 := buffsOnRoundStart st1 st1.round
  let st3 := tickDots st2
  let st4 := reduceCooldowns st3
  let st5 := (actorOrder st4).foldl (actStep p) st4
  if !st5.over && 30 ≤ st5.round then finish st5 Winner.Draw else st5

/-- `BattleLogic.init`: fresh state, defensively cloned rosters, zeroed
per-unit statistics, initial buff containers, `battleStart` event. -/
def init (setup : BattleSetup) : BattleState :=
  let all := setup.teamA ++ setup.teamB
  { round := 0
    over := false
    teamA := setup.teamA
    teamB := setup.teamB
    statsById := all.foldl
      (fun m f => alSet f.id
        { unitId := f.id, heroId := f.heroId, heroClass := f.heroClass,
          damageDealt := 0, damageTaken := 0, healingDone := 0, shieldsApplied := 0,
          kills := 0, skillCasts := 0, skillCastsById := [] } m)
      []
    shieldById := []
    skillCooldowns := []
    buffMap := buffSysInit all
    events := [BattleEvent.battleStart setup.teamA setup.teamB]
    rngIdx := 0 }

/-- The first `maxRounds`-bounded loop of `runToEnd`. -/
def runLoop (p : BattleParams) : Nat → BattleState → BattleState
  | 0, st => st
  | n + 1, st => if st.over then st else runLoop p n (stepRound p st)

/-- `BattleLogic.runToEnd(maxRounds)`. -/
def runToEndWith (p : BattleParams) (maxRounds : Nat) (st : BattleState) : BattleState :=
  let st' := runLoop p maxRounds st
  if st'.over then st' else finish st' Winner.Draw

/-- `BattleLogic.runToEnd()` with the default cap of 30 rounds. -/
def runToEnd (p : BattleParams) (st : BattleState) : BattleState :=
  runToEndWith p 30 st

/-! ## Projections used in the stated properties -/

/-- Current shield pool of a combatant (0 when absent). -/
def shieldOf (st : BattleState) (id : String) : Nat := (alGet id st.shieldById).getD 0

/-- Current hp of the combatant `findFighter` resolves for an id. -/
def hpOf (st : BattleState) (id : String) : Option Nat := (findFighter st id).map (fun f => f.hp)

/-- The `UnitStats` record for an id. -/
def statsOf (st : BattleState) (id : String) : Option UnitStats := alGet id st.statsById

/-- Whether an event is a `damage` event. -/
def isDamageEvent : BattleEvent → Bool
  | BattleEvent.damage _ _ _ _ _ => true
  | _ => false

/-- The `damage` events of a log, in order. -/
def damageEvents (l : List BattleEvent) : List BattleEvent := l.filter isDamageEvent

/-- The raw damage `dealDamage` works with. -/
def rawDamage (D : Nat) : Nat := max 1 D

/-- The post-shield remainder `dealDamage` applies to HP. -/
def postShield (st : BattleState) (tgt : String) (D : Nat) : Nat :=
  rawDamage D - min (shieldOf st tgt) (rawDamage D)

/-- The stored cooldown for an actor/skill pair (`getCooldown`, 0 when
absent). -/
def cdOf (st : BattleState) (actorId skillId : String) : Nat := getCooldown st actorId skillId

/-- The per-skill cast counter stored in a stats ledger
(`UnitStats.skillCastsById`, 0 when the unit or the skill is absent). -/
def castsIn (m : List (String × UnitStats)) (actorId skillId : String) : Nat :=
  match alGet actorId m with
  | some u => (alGet skillId u.skillCastsById).getD 0
  | none => 0

/-- The recorded number of casts of a skill by a unit
(`UnitStats.skillCastsById`, 0 when absent). -/
def castsOf (st : BattleState) (actorId skillId : String) : Nat :=
  castsIn st.statsById actorId skillId

/-- The configured cooldown `castSkill` applies:
`Math.max(0, Math.floor(skill.cooldown ?? 0))`. -/
def configuredCooldown (skill : Skill) : Nat :=
  (max 0 ⌊(skill.cooldown.getD 0 : ℚ)⌋).toNat

/-- Every fighter of a team is dead. -/
def allDead (team : List Fighter) : Prop := ∀ f ∈ team, f.hp = 0

/-- The HP bound of the data model: `hp ≤ maxHp` for every combatant
(non-negativity is by the `Nat` typing). -/
def hpBounded (st : BattleState) : Prop :=
  ∀ f ∈ st.teamA ++ st.teamB, f.hp ≤ f.maxHp

/-- The end-event soundness invariant: a `battleEnd` event naming a side can
only have been emitted after the opposite team was wiped out, and `over`
implies some `battleEnd` was emitted. -/
def endEventsSound (st : BattleState) : Prop :=
  (BattleEvent.battleEnd Winner.A ∈ st.events → allDead st.teamB) ∧
  (BattleEvent.battleEnd Winner.B ∈ st.events → allDead st.teamA) ∧
  (st.over = true → ∃ w, BattleEvent.battleEnd w ∈ st.events)

/-! ## Concrete fixtures for the witnesses and counterexamples -/

/-- Fixture: a plain attacker on side A. -/
def exA : Fighter := ⟨"a", "A", Side.A, 30, 30, 10, 5, none, none, [], []⟩

/-- Fixture: a plain defender on side B. -/
def exB : Fighter := ⟨"b", "B", Side.B, 20, 20, 8, 4, none, none, [], []⟩

/-- Fixture: a dead fighter on side B. -/
def exDead : Fighter := ⟨"d", "D", Side.B, 0, 20, 8, 3, none, none, [], []⟩

/-- Fixture: initialized battle with a shield of 5 on `b` and a dead `d`. -/
def exShieldSt : BattleState :=
  { init ⟨[exA], [exB, exDead], none⟩ with shieldById := [("b", 5)] }

/-- Fixture: a side-B fighter that starts with the `taunt` buff. -/
def exTauntF : Fighter := ⟨"t", "T", Side.B, 25, 25, 6, 2, none, none, [], ["taunt"]⟩

/-- Fixture: initialized battle whose ledger carries `t`'s taunt. -/
def exTauntSt : BattleState := init ⟨[exA], [exB, exTauntF], none⟩

/-- Fixture: a damage skill with cooldown 2. -/
def exSkill1 : Skill :=
  ⟨"sk1", "Strike", SkillKind.active, some 2, SkillTarget.enemy_single, SkillEffect.damage,
    some ⟨some 1, none, none, none, none, none, none⟩⟩

/-- Fixture: battle parameters with `sk1` in the table, a constant rng and
the default variance bounds. -/
def exP : BattleParams := ⟨[("sk1", exSkill1)], fun _ => 1 / 2, 17 / 20, 23 / 20⟩

/-- Fixture: an actor owning `["sk1", "sk2"]` (only the head is ever
inspected). -/
def exCaster : Fighter := ⟨"w", "W", Side.A, 30, 30, 10, 5, none, none, ["sk1", "sk2"], []⟩

/-- Fixture: an actor whose first skill id is unknown to the table. -/
def exUnknown : Fighter := ⟨"u", "U", Side.A, 30, 30, 10, 5, none, none, ["zz"], []⟩

/-- Fixture: initialized battle for the skill-selection witnesses. -/
def exSkillSt : BattleState := init ⟨[exCaster, exUnknown], [exB], none⟩

/-- Fixture: an `apply_dot` skill with ratio 2/5 and duration 2. -/
def exDotSkill : Skill :=
  ⟨"dot1", "Burn", SkillKind.active, some 3, SkillTarget.enemy_single, SkillEffect.apply_dot,
    some ⟨some (2 / 5), none, none, some 2, some "burn", none, none⟩⟩

/-- Fixture: a caster with attack power 1 (so `atk * ratio < 1`). -/
def exDotCaster : Fighter := ⟨"m", "M", Side.A, 30, 30, 1, 5, none, none, ["dot1"], []⟩

/-- Fixture: initialized battle for the DOT counterexample. -/
def exDotSt : BattleState := init ⟨[exDotCaster], [exB], none⟩

/-- Fixture: a side-B victim for the DOT tick witness. -/
def exBurnF : Fighter := ⟨"v", "V", Side.B, 40, 40, 5, 1, none, none, [], []⟩

/-- Fixture: a two-stack burn instance recorded with source `a` and a
stored per-round payload of 7. -/
def exBurnB : BuffInst := ⟨"burn", 2, some 4, some "a", [("damagePerRound", 7)]⟩

/-- Fixture: initialized battle whose ledger carries `exBurnB` on `v`. -/
def exBurnSt : BattleState :=
  { init ⟨[exA], [exBurnF], none⟩ with buffMap := [("v", [exBurnB])] }

/-- Fixture: a roster entry violating the HP bound (`hp 2 > maxHp 1`). -/
def exBad : Fighter := ⟨"x", "X", Side.A, 2, 1, 1, 1, none, none, [], []⟩

/-! ## Association-list and first-match lemmas -/

theorem alGet_alSet_self {α : Type} (k : String) (v : α) (l : List (String × α)) :
    alGet k (alSet k v l) = some v := by
  induction l with
  | nil => simp [alGet, alSet]
  | cons e rest ih =>
    obtain ⟨k', v'⟩ := e
    by_cases h : k' = k <;> simp [alGet, alSet, h, ih]

theorem alGet_alSet_ne {α : Type} (k k' : String) (v : α) (l : List (String × α))
    (h : k' ≠ k) : alGet k' (alSet k v l) = alGet k' l := by
  have h' : ¬(k = k') := fun hh => h hh.symm
  induction l with
  | nil => simp [alGet, alSet, h']
  | cons e rest ih =>
    obtain ⟨k₀, v₀⟩ := e
    by_cases h₀ : k₀ = k
    · subst h₀
      simp [alGet, alSet, h']
    · simp [alGet, alSet, h₀, ih]

theorem alGet_alRemove_self {α : Type} (k : String) (l : List (String × α)) :
    alGet k (alRemove k l) = none := by
  induction l with
  | nil => simp [alGet, alRemove]
  | cons e rest ih =>
    obtain ⟨k₀, v₀⟩ := e
    by_cases h : k₀ = k
    · simpa [alRemove, List.filter, h] using ih
    · simpa [alGet, alRemove, List.filter, h] using ih

theorem alGet_alRemove_ne {α : Type} (k k' : String) (l : List (String × α))
    (h : k' ≠ k) : alGet k' (alRemove k l) = alGet k' l := by
  have hks : ¬(k = k') := fun hh => h hh.symm
  induction l with
  | nil => simp [alGet, alRemove]
  | cons e rest ih =>
    obtain ⟨k₀, v₀⟩ := e
    by_cases h₀ : k₀ = k
    · subst h₀
      simpa [alGet, alRemove, List.filter, hks] using ih
    · rw [show alRemove k ((k₀, v₀) :: rest) = (k₀, v₀) :: alRemove k rest from by
        simp [alRemove, List.filter, h₀]]
      by_cases h₁ : k₀ = k' <;> simp [alGet, h₁, ih]

theorem alGet_alUpdate_self {α : Type} (k : String) (g : α → α) (l : List (String × α)) :
    alGet k (alUpdate k g l) = (alGet k l).map g := by
  induction l with
  | nil => simp [alGet, alUpdate]
  | cons e rest ih =>
    obtain ⟨k₀, v₀⟩ := e
    by_cases h : k₀ = k <;> simp [alGet, alUpdate, h, ih]

theorem alGet_alUpdate_ne {α : Type} (k k' : String) (g : α → α) (l : List (String × α))
    (h : k' ≠ k) : alGet k' (alUpdate k g l) = alGet k' l := by
  have hks : ¬(k = k') := fun hh => h hh.symm
  induction l with
  | nil => simp [alGet, alUpdate]
  | cons e rest ih =>
    obtain ⟨k₀, v₀⟩ := e
    by_cases h₀ : k₀ = k
    · subst h₀
      simp [alGet, alUpdate, hks]
    · simp [alGet, alUpdate, h₀, ih]

theorem find?_mapFirst {α : Type} (p : α → Bool) (g : α → α)
    (hg : ∀ x, p x = true → p (g x) = true) (l : List α) :
    (mapFirst p g l).find? p = (l.find? p).map g := by
  induction l with
  | nil => simp [mapFirst]
  | cons x xs ih =>
    by_cases h : p x = true
    · simp [mapFirst, h, List.find?_cons, hg x h]
    · simp only [Bool.not_eq_true] at h
      simp [mapFirst, h, List.find?_cons, ih]

theorem mapFirst_forall {α : Type} {Q : α → Prop} (p : α → Bool) (g : α → α)
    (hQ : ∀ x, Q x → Q (g x)) (l : List α) (h : ∀ x ∈ l, Q x) :
    ∀ y ∈ mapFirst p g l, Q y := by
  induction l with
  | nil => simp [mapFirst]
  | cons x xs ih =>
    intro y hy
    by_cases hx : p x = true
    · rw [mapFirst, if_pos hx] at hy
      rcases List.mem_cons.mp hy with hy1 | hy2
      · exact hy1 ▸ hQ x (h x (List.mem_cons_self x xs))
      · exact h y (List.mem_cons_of_mem x hy2)
    · rw [mapFirst, if_neg hx] at hy
      rcases List.mem_cons.mp hy with hy1 | hy2
      · exact hy1 ▸ h x (List.mem_cons_self x xs)
      · exact ih (fun z hz => h z (List.mem_cons_of_mem x hz)) y hy2

theorem findFighter_mapHpFirst_self (st : BattleState) (id : String) (g : Nat → Nat) :
    findFighter (mapHpFirst st id g) id =
      (findFighter st id).map (fun f => { f with hp := g f.hp }) := by
  have hg : ∀ x : Fighter, (fun f => (f.id = id : Bool)) x = true →
      (fun f => (f.id = id : Bool)) ({ x with hp := g x.hp }) = true := by
    intro x hx
    exact hx
  by_cases h : st.teamA.any (fun f => f.id = id)
  · have hsome : (st.teamA.find? (fun f => (f.id = id : Bool))).isSome := by
      rcases List.any_eq_true.mp h with ⟨x, hx, hpx⟩
      exact List.find?_isSome.mpr ⟨x, hx, hpx⟩
    rcases Option.isSome_iff_exists.mp hsome with ⟨x, hx⟩
    simp [findFighter, mapHpFirst, h, List.find?_append, hx,
      find?_mapFirst _ _ hg, Option.orElse]
  · have hnone : st.teamA.find? (fun f => (f.id = id : Bool)) = none := by
      rw [List.find?_eq_none]
      intro x hx hpx
      exact h (List.any_eq_true.mpr ⟨x, hx, hpx⟩)
    simp [findFighter, mapHpFirst, h, List.find?_append, hnone,
      find?_mapFirst _ _ hg, Option.orElse]

theorem findFighter_mk (r : Nat) (o : Bool) (A B : List Fighter)
    (s : List (String × UnitStats)) (sh : List (String × Nat))
    (cd : List (String × List (String × Nat))) (bm : List (String × List BuffInst))
    (ev : List BattleEvent) (ri : Nat) (id : String) :
    findFighter ⟨r, o, A, B, s, sh, cd, bm, ev, ri⟩ id =
      (A ++ B).find? (fun f => (f.id = id : Bool)) := rfl

theorem mapHpFirst_round (st : BattleState) (id : String) (g : Nat → Nat) :
    (mapHpFirst st id g).round = st.round := by
  unfold mapHpFirst
  split <;> rfl

theorem mapHpFirst_over (st : BattleState) (id : String) (g : Nat → Nat) :
    (mapHpFirst st id g).over = st.over := by
  unfold mapHpFirst
  split <;> rfl

theorem mapHpFirst_statsById (st : BattleState) (id : String) (g : Nat → Nat) :
    (mapHpFirst st id g).statsById = st.statsById := by
  unfold mapHpFirst
  split <;> rfl

theorem mapHpFirst_shieldById (st : BattleState) (id : String) (g : Nat → Nat) :
    (mapHpFirst st id g).shieldById = st.shieldById := by
  unfold mapHpFirst
  split <;> rfl

theorem mapHpFirst_skillCooldowns (st : BattleState) (id : String) (g : Nat → Nat) :
    (mapHpFirst st id g).skillCooldowns = st.skillCooldowns := by
  unfold mapHpFirst
  split <;> rfl

theorem mapHpFirst_buffMap (st : BattleState) (id : String) (g : Nat → Nat) :
    (mapHpFirst st id g).buffMap = st.buffMap := by
  unfold mapHpFirst
  split <;> rfl

theorem mapHpFirst_events (st : BattleState) (id : String) (g : Nat → Nat) :
    (mapHpFirst st id g).events = st.events := by
  unfold mapHpFirst
  split <;> rfl

theorem mapHpFirst_rngIdx (st : BattleState) (id : String) (g : Nat → Nat) :
    (mapHpFirst st id g).rngIdx = st.rngIdx := by
  unfold mapHpFirst
  split <;> rfl

/-! ## Characterizations of the effect engine operations -/

theorem hpOf_emitE (st : BattleState) (e : BattleEvent) (id : String) :
    hpOf (emitE st e) id = hpOf st id := rfl

theorem hpOf_statUpdate (st : BattleState) (k : String) (g : UnitStats → UnitStats)
    (id : String) : hpOf (statUpdate st k g) id = hpOf st id := rfl

theorem hpOf_shieldWrite (st : BattleState) (x : List (String × Nat)) (id : String) :
    hpOf { st with shieldById := x } id = hpOf st id := rfl

theorem hpOf_mapHpFirst_self (st : BattleState) (k : String) (g : Nat → Nat) :
    hpOf (mapHpFirst st k g) k = (hpOf st k).map g := by
  cases hfind : findFighter st k <;>
    simp [hpOf, findFighter_mapHpFirst_self, hfind]

/-- On a living, found target, `dealDamage` lowers HP by exactly the
post-shield remainder (`Nat` subtraction floors at 0). -/
theorem hpOf_dealDamage (st : BattleState) (src tgt : String) (D : Nat) (f : Fighter)
    (hf : findFighter st tgt = some f) (halive : 0 < f.hp) :
    hpOf (dealDamage st src tgt D) tgt = some (f.hp - postShield st tgt D) := by
  have hhp : ¬ (f.hp = 0) := by omega
  have hOf : hpOf st tgt = some f.hp := by simp [hpOf, hf]
  simp only [postShield, rawDamage, shieldOf]
  simp only [dealDamage, hf]
  split_ifs with h1 h2 h3 h4 h5 <;>
    simp only [hpOf_emitE, hpOf_statUpdate, hpOf_shieldWrite, hpOf_mapHpFirst_self, hOf,
      Option.map_some', Option.some.injEq] <;>
    omega

theorem shieldOf_emitE (st : BattleState) (e : BattleEvent) (id : String) :
    shieldOf (emitE st e) id = shieldOf st id := rfl

theorem shieldOf_statUpdate (st : BattleState) (k : String) (g : UnitStats → UnitStats)
    (id : String) : shieldOf (statUpdate st k g) id = shieldOf st id := rfl

theorem shieldOf_mapHpFirst (st : BattleState) (k : String) (g : Nat → Nat) (id : String) :
    shieldOf (mapHpFirst st k g) id = shieldOf st id := by
  simp [shieldOf, mapHpFirst_shieldById]

/-- On a living, found target, `dealDamage` consumes `min(shield, raw)` of
the target's shield pool. -/
theorem shieldOf_dealDamage (st : BattleState) (src tgt : String) (D : Nat) (f : Fighter)
    (hf : findFighter st tgt = some f) (halive : 0 < f.hp) :
    shieldOf (dealDamage st src tgt D) tgt =
      shieldOf st tgt - min (shieldOf st tgt) (rawDamage D) := by
  have hhp : ¬ (f.hp = 0) := by omega
  simp only [rawDamage]
  simp only [dealDamage, hf]
  have hget : (alGet tgt st.shieldById).getD 0 = shieldOf st tgt := rfl
  split_ifs with h1 h2 h3 h4 h5 <;>
    simp only [shieldOf_emitE, shieldOf_statUpdate, shieldOf_mapHpFirst, hget] <;>
    simp only [shieldOf, alGet_alSet_self, alGet_alRemove_self, Option.getD_some,
      Option.getD_none] <;>
    omega

/-- On a living, found target, `dealDamage` appends a `damage` event exactly
when the post-shield remainder is positive, followed by a `dead` event
exactly when HP reaches zero. -/
theorem events_dealDamage (st : BattleState) (src tgt : String) (D : Nat) (f : Fighter)
    (hf : findFighter st tgt = some f) (halive : 0 < f.hp) :
    (dealDamage st src tgt D).events =
      st.events ++
        (if 0 < postShield st tgt D then
          [BattleEvent.damage src tgt (postShield st tgt D) (f.hp - postShield st tgt D) f.maxHp]
        else []) ++
        (if f.hp - postShield st tgt D = 0 then [BattleEvent.dead tgt] else []) := by
  have hhp : ¬ (f.hp = 0) := by omega
  simp only [postShield, rawDamage, shieldOf]
  simp only [dealDamage, hf]
  split_ifs with h1 h2 h3 h4 h5 <;>
    simp only [emitE, statUpdate, mapHpFirst_events, List.append_nil, List.append_assoc]

/-- The statistics updates of `dealDamage` on a living, found target:
`damageDealt` of the source grows by the raw (pre-shield) amount,
`damageTaken` of the target grows by the post-shield remainder, and the
source's kill counter increments when the target dies. -/
theorem statsById_dealDamage (st : BattleState) (src tgt : String) (D : Nat) (f : Fighter)
    (hf : findFighter st tgt = some f) (halive : 0 < f.hp) :
    (dealDamage st src tgt D).statsById =
      (if f.hp - postShield st tgt D = 0 then
        alUpdate src (fun u => { u with kills := u.kills + 1 })
          (alUpdate tgt (fun u => { u with damageTaken := u.damageTaken + postShield st tgt D })
            (alUpdate src (fun u => { u with damageDealt := u.damageDealt + rawDamage D })
              st.statsById))
      else
        alUpdate tgt (fun u => { u with damageTaken := u.damageTaken + postShield st tgt D })
          (alUpdate src (fun u => { u with damageDealt := u.damageDealt + rawDamage D })
            st.statsById)) := by
  have hhp : ¬ (f.hp = 0) := by omega
  simp only [postShield, rawDamage, shieldOf]
  simp only [dealDamage, hf]
  split_ifs with h1 h2 h3 h4 h5 <;>
    simp only [statUpdate, emitE, mapHpFirst_statsById]

theorem statsOf_dealDamage_damageDealt (st : BattleState) (src tgt : String) (D : Nat)
    (f : Fighter) (hf : findFighter st tgt = some f) (halive : 0 < f.hp) :
    (statsOf (dealDamage st src tgt D) src).map (fun u => u.damageDealt) =
      (statsOf st src).map (fun u => u.damageDealt + rawDamage D) := by
  simp only [statsOf, statsById_dealDamage st src tgt D f hf halive]
  by_cases heq : tgt = src
  · subst heq
    split_ifs <;>
      cases halg : alGet tgt st.statsById <;>
        simp [alGet_alUpdate_self, halg]
  · have hne : ¬ (src = tgt) := fun hh => heq hh.symm
    split_ifs <;>
      cases halg : alGet src st.statsById <;>
        simp [alGet_alUpdate_self, alGet_alUpdate_ne tgt src _ _ hne, halg]

theorem statsOf_dealDamage_damageTaken (st : BattleState) (src tgt : String) (D : Nat)
    (f : Fighter) (hf : findFighter st tgt = some f) (halive : 0 < f.hp) :
    (statsOf (dealDamage st src tgt D) tgt).map (fun u => u.damageTaken) =
      (statsOf st tgt).map (fun u => u.damageTaken + postShield st tgt D) := by
  simp only [statsOf, statsById_dealDamage st src tgt D f hf halive]
  by_cases heq : src = tgt
  · subst heq
    split_ifs <;>
      cases halg : alGet src st.statsById <;>
        simp [alGet_alUpdate_self, halg]
  · have hne : ¬ (tgt = src) := fun hh => heq hh.symm
    split_ifs <;>
      cases halg : alGet tgt st.statsById <;>
        simp [alGet_alUpdate_self, alGet_alUpdate_ne src tgt _ _ hne, halg]

/-! ## Claim: shield absorption order (C4) -/

/-- C4: for every `dealDamage` call on a living target with current shield
`S` and raw damage `D ≥ 1`: if `D ≤ S` the target's HP is unchanged, the
shield decreases by exactly `D`, and no `damage` event is emitted; if
`D > S` the shield is fully consumed, HP decreases by exactly `D − S`
(floored at 0), and exactly one `damage` event is emitted whose amount
field equals the post-shield remainder `D − S`. -/
theorem dealDamage_shield_absorption_order (st : BattleState) (src tgt : String) (D : Nat)
    (f : Fighter) (hf : findFighter st tgt = some f) (halive : 0 < f.hp) (hD : 1 ≤ D) :
    ((D ≤ shieldOf st tgt) →
      hpOf (dealDamage st src tgt D) tgt = some f.hp ∧
      shieldOf (dealDamage st src tgt D) tgt = shieldOf st tgt - D ∧
      damageEvents (dealDamage st src tgt D).events = damageEvents st.events) ∧
    ((shieldOf st tgt < D) →
      shieldOf (dealDamage st src tgt D) tgt = 0 ∧
      hpOf (dealDamage st src tgt D) tgt = some (f.hp - (D - shieldOf st tgt)) ∧
      damageEvents (dealDamage st src tgt D).events =
        damageEvents st.events ++
          [BattleEvent.damage src tgt (D - shieldOf st tgt)
            (f.hp - (D - shieldOf st tgt)) f.maxHp]) := by
  have hraw : rawDamage D = D := by
    simp only [rawDamage]
    omega
  constructor
  · intro hle
    have hps : postShield st tgt D = 0 := by
      simp only [postShield, hraw]
      omega
    refine ⟨?_, ?_, ?_⟩
    · rw [hpOf_dealDamage st src tgt D f hf halive, hps]
      simp
    · rw [shieldOf_dealDamage st src tgt D f hf halive, hraw]
      omega
    · rw [damageEvents, events_dealDamage st src tgt D f hf halive, hps]
      have hnz : ¬ (f.hp - 0 = 0) := by omega
      simp [damageEvents, hnz]
      exact fun hh => absurd hh (by omega)
  · intro hgt
    have hps : postShield st tgt D = D - shieldOf st tgt := by
      simp only [postShield, hraw]
      omega
    have hpos : 0 < postShield st tgt D := by omega
    refine ⟨?_, ?_, ?_⟩
    · rw [shieldOf_dealDamage st src tgt D f hf halive, hraw]
      omega
    · rw [hpOf_dealDamage st src tgt D f hf halive, hps]
    · rw [damageEvents, events_dealDamage st src tgt D f hf halive, if_pos hpos, hps]
      by_cases hdead : f.hp - (D - shieldOf st tgt) = 0 <;>
        simp [damageEvents, hdead, isDamageEvent, List.filter_append]

/-- Witness for C4 at a concrete input (shield 5, raw damage 3). -/
theorem dealDamage_shield_absorption_order_witness :
    ((3 ≤ shieldOf exShieldSt "b") →
      hpOf (dealDamage exShieldSt "a" "b" 3) "b" = some exB.hp ∧
      shieldOf (dealDamage exShieldSt "a" "b" 3) "b" = shieldOf exShieldSt "b" - 3 ∧
      damageEvents (dealDamage exShieldSt "a" "b" 3).events = damageEvents exShieldSt.events) ∧
    ((shieldOf exShieldSt "b" < 3) →
      shieldOf (dealDamage exShieldSt "a" "b" 3) "b" = 0 ∧
      hpOf (dealDamage exShieldSt "a" "b" 3) "b" = some (exB.hp - (3 - shieldOf exShieldSt "b")) ∧
      damageEvents (dealDamage exShieldSt "a" "b" 3).events =
        damageEvents exShieldSt.events ++
          [BattleEvent.damage "a" "b" (3 - shieldOf exShieldSt "b")
            (exB.hp - (3 - shieldOf exShieldSt "b")) exB.maxHp]) :=
  dealDamage_shield_absorption_order exShieldSt "a" "b" 3 exB (by decide) (by decide) (by decide)

/-! ## Claim: unit statistics updates of dealDamage (C2) -/

/-- C2 counterexample: a fully shielded hit (shield 5, raw 3) applies 0 to
HP and leaves the target's `damageTaken` at 0 — but the source's
`damageDealt` grows by the raw pre-shield amount 3, not by the post-shield
remainder 0 as the claim states. -/
theorem dealDamage_stats_counterexample :
    postShield exShieldSt "b" 3 = 0 ∧
    hpOf (dealDamage exShieldSt "a" "b" 3) "b" = hpOf exShieldSt "b" ∧
    (statsOf (dealDamage exShieldSt "a" "b" 3) "b").map (fun u => u.damageTaken) = some 0 ∧
    (statsOf (dealDamage exShieldSt "a" "b" 3) "a").map (fun u => u.damageDealt) = some 3 ∧
    ¬ (statsOf (dealDamage exShieldSt "a" "b" 3) "a").map (fun u => u.damageDealt) = some 0 := by
  decide

/-- C2 amended: for every `dealDamage(source, target, amount)` call on a
living target, the target's cumulative `damageTaken` increases by exactly
the post-shield remainder actually applied to HP, while the source's
cumulative `damageDealt` increases by the full raw (pre-shield) amount. -/
theorem dealDamage_stats_updates (st : BattleState) (src tgt : String) (D : Nat) (f : Fighter)
    (hf : findFighter st tgt = some f) (halive : 0 < f.hp) (hD : 1 ≤ D) :
    hpOf (dealDamage st src tgt D) tgt = some (f.hp - postShield st tgt D) ∧
    (statsOf (dealDamage st src tgt D) tgt).map (fun u => u.damageTaken) =
      (statsOf st tgt).map (fun u => u.damageTaken + postShield st tgt D) ∧
    (statsOf (dealDamage st src tgt D) src).map (fun u => u.damageDealt) =
      (statsOf st src).map (fun u => u.damageDealt + D) := by
  have hraw : rawDamage D = D := by
    simp only [rawDamage]
    omega
  refine ⟨hpOf_dealDamage st src tgt D f hf halive,
    statsOf_dealDamage_damageTaken st src tgt D f hf halive, ?_⟩
  rw [statsOf_dealDamage_damageDealt st src tgt D f hf halive, hraw]

/-- Witness for the amended C2 at a concrete input. -/
theorem dealDamage_stats_updates_witness :
    hpOf (dealDamage exShieldSt "a" "b" 3) "b" = some (exB.hp - postShield exShieldSt "b" 3) ∧
    (statsOf (dealDamage exShieldSt "a" "b" 3) "b").map (fun u => u.damageTaken) =
      (statsOf exShieldSt "b").map (fun u => u.damageTaken + postShield exShieldSt "b" 3) ∧
    (statsOf (dealDamage exShieldSt "a" "b" 3) "a").map (fun u => u.damageDealt) =
      (statsOf exShieldSt "a").map (fun u => u.damageDealt + 3) :=
  dealDamage_stats_updates exShieldSt "a" "b" 3 exB (by decide) (by decide) (by decide)

/-! ## Claim: no-op semantics on dead or unknown targets (C3) -/

/-- C3 counterexample: `addBuff` on a dead target (`d`, hp 0) is not a
no-op — it still records the buff in the ledger and emits a `buffAdd`
event. -/
theorem addBuff_dead_target_counterexample :
    hpOf exShieldSt "d" = some 0 ∧
    (addBuff exShieldSt "a" "d" "taunt" 1 none []).events ≠ exShieldSt.events ∧
    getBuffs (addBuff exShieldSt "a" "d" "taunt" 1 none []) "d" ≠ getBuffs exShieldSt "d" := by
  decide

/-- C3 amended: `dealDamage`, `heal` and `applyShield` on an unknown or
dead target id leave the battle state unchanged and emit no event;
`addBuff`, however, has no liveness guard — it always mutates the buff
ledger and emits a `buffAdd` event. -/
theorem mutation_dead_target_noop (st : BattleState) (src tgt : String) (n stk : Nat)
    (bid : String) (dur : Option ℚ) (data : List (String × ℚ))
    (h : findFighter st tgt = none ∨ ∃ f, findFighter st tgt = some f ∧ f.hp = 0) :
    dealDamage st src tgt n = st ∧ heal st src tgt n = st ∧ applyShield st src tgt n = st ∧
    (addBuff st src tgt bid stk dur data).events =
      st.events ++ [BattleEvent.buffAdd src tgt bid stk] := by
  rcases h with h | ⟨f, hf, hdead⟩
  · simp [dealDamage, heal, applyShield, h, addBuff, emitE, buffSysAddBuff]
  · simp [dealDamage, heal, applyShield, hf, hdead, addBuff, emitE, buffSysAddBuff]

/-- Witness for the amended C3 at a concrete dead target. -/
theorem mutation_dead_target_noop_witness :
    dealDamage exShieldSt "a" "d" 5 = exShieldSt ∧ heal exShieldSt "a" "d" 5 = exShieldSt ∧
    applyShield exShieldSt "a" "d" 5 = exShieldSt ∧
    (addBuff exShieldSt "a" "d" "taunt" 1 none []).events =
      exShieldSt.events ++ [BattleEvent.buffAdd "a" "d" "taunt" 1] :=
  mutation_dead_target_noop exShieldSt "a" "d" 5 1 "taunt" none []
    (Or.inr ⟨exDead, by decide, by decide⟩)

/-! ## Claim: taunt override in basic-attack targeting (C8) -/

theorem find?_filter' {α : Type} (l : List α) (p q : α → Bool) :
    (l.filter p).find? q = l.find? (fun a => p a && q a) := by
  induction l with
  | nil => rfl
  | cons x xs ih =>
    by_cases hp : p x <;> by_cases hq : q x <;>
      simp [List.filter_cons, hp, hq, List.find?_cons, ih]

/-- C8: whenever at least one living member of the enemy team carries the
`taunt` buff, `selectTarget` returns the first living taunting enemy in
roster order, for every attacker archetype (the result does not mention the
actor at all). -/
theorem selectTarget_taunt_override (st : BattleState) (actor : Fighter)
    (enemyTeam : List Fighter)
    (h : ∃ t ∈ enemyTeam, 0 < t.hp ∧ hasBuff st t.id "taunt" = true) :
    selectTarget st actor enemyTeam =
      enemyTeam.find? (fun t => decide (0 < t.hp) && hasBuff st t.id "taunt") ∧
    ∃ u, selectTarget st actor enemyTeam = some u ∧ u ∈ enemyTeam ∧ 0 < u.hp ∧
      hasBuff st u.id "taunt" = true := by
  obtain ⟨t, htm, hth, htt⟩ := h
  have hne : ¬ (enemyTeam.filter (fun t => 0 < t.hp)).isEmpty := by
    simp [List.isEmpty_iff, List.filter_eq_nil_iff]
    exact ⟨t, htm, by omega⟩
  have hfind : (enemyTeam.filter (fun t => 0 < t.hp)).find?
      (fun u => hasBuff st u.id "taunt") =
      enemyTeam.find? (fun u => decide (0 < u.hp) && hasBuff st u.id "taunt") :=
    find?_filter' enemyTeam _ _
  have hsome : ((enemyTeam.filter (fun t => 0 < t.hp)).find?
      (fun u => hasBuff st u.id "taunt")).isSome := by
    rw [List.find?_isSome]
    exact ⟨t, by simp [List.mem_filter, htm, hth], htt⟩
  rcases Option.isSome_iff_exists.mp hsome with ⟨u, hu⟩
  have hsel : selectTarget st actor enemyTeam = some u := by
    simp [selectTarget, hne, hu]
  have humem := List.mem_of_find?_eq_some hu
  have hup := List.find?_some hu
  refine ⟨by rw [hsel, ← hfind, hu], u, hsel, ?_, ?_, hup⟩
  · exact (List.mem_filter.mp humem).1
  · simpa using (List.mem_filter.mp humem).2

/-- Witness for C8: with `t` taunting and alive, every archetype attacks
`t`. -/
theorem selectTarget_taunt_override_witness :
    (selectTarget exTauntSt exA [exB, exTauntF] =
      [exB, exTauntF].find? (fun t => decide (0 < t.hp) && hasBuff exTauntSt t.id "taunt")) ∧
    ∃ u, selectTarget exTauntSt exA [exB, exTauntF] = some u ∧ u ∈ [exB, exTauntF] ∧
      0 < u.hp ∧ hasBuff exTauntSt u.id "taunt" = true :=
  selectTarget_taunt_override exTauntSt exA [exB, exTauntF] ⟨exTauntF, by decide, by decide,
    by decide⟩

/-! ## Claim: skill selection inspects only the first skill (C10) -/

/-- C10: `pickSkill` inspects only the first entry of the actor's skill
list — its result on an actor equals its result with every later skill
dropped, and any id it returns is the head of the list; whenever it returns
nothing (unknown id, non-active kind, positive cooldown, failed archetype
precondition, empty or falsy head), `performAction` performs the basic
attack even if a later-index skill would be castable. -/
theorem pickSkill_head_only (p : BattleParams) (st : BattleState) (actor : Fighter) :
    (∀ s0 rest, actor.skills = s0 :: rest →
        pickSkill p st actor = pickSkill p st { actor with skills := [s0] }) ∧
    (∀ sid, pickSkill p st actor = some sid → actor.skills.head? = some sid) ∧
    (pickSkill p st actor = none →
      performAction p st actor = performBasicAttack p st actor) := by
  refine ⟨?_, ?_, ?_⟩
  · intro s0 rest hsk
    simp only [pickSkill, hsk]
    rfl
  · intro sid hpick
    cases hsk : actor.skills with
    | nil => simp [pickSkill, hsk] at hpick
    | cons s0 rest =>
      simp only [pickSkill, hsk] at hpick
      simp only [List.head?]
      repeat' split at hpick
      all_goals cases hpick <;> rfl
  · intro h
    simp [performAction, h]

/-- Witness for C10: `w` owns `["sk1", "sk2"]` and picks `sk1`; `u`'s head
skill id is unknown, so `u` basic-attacks. -/
theorem pickSkill_head_only_witness :
    (pickSkill exP exSkillSt exCaster = pickSkill exP exSkillSt
      { exCaster with skills := ["sk1"] }) ∧
    exCaster.skills.head? = some "sk1" ∧
    performAction exP exSkillSt exUnknown = performBasicAttack exP exSkillSt exUnknown :=
  ⟨(pickSkill_head_only exP exSkillSt exCaster).1 "sk1" ["sk2"] (by decide),
   (pickSkill_head_only exP exSkillSt exCaster).2.1 "sk1" (by decide),
   (pickSkill_head_only exP exSkillSt exUnknown).2.2 (by decide)⟩

/-! ## Claim: the damage-over-time tick (C1) -/

theorem jsFloorAmount_pos (q : ℚ) : 0 < jsFloorAmount q := by
  simp only [jsFloorAmount]
  omega

theorem jsFloorAmount_natCast (n : Nat) (h : 1 ≤ n) : jsFloorAmount (n : ℚ) = n := by
  simp only [jsFloorAmount, Int.floor_natCast]
  omega

theorem dotDamagePerRound_pos (A : Nat) (ρ : ℚ) : 1 ≤ dotDamagePerRound A ρ := by
  simp only [dotDamagePerRound]
  exact jsFloorAmount_pos _

theorem getBuffs_emitE (st : BattleState) (e : BattleEvent) (id : String) :
    getBuffs (emitE st e) id = getBuffs st id := rfl

/-- A fresh application through the modelled `BuffSystem.addBuff` appends a
single-stack instance recording the applying combatant and the `data`
payload, expiring `dur` rounds after the current round. -/
theorem mem_getBuffs_buffSysAddBuff_fresh (S : BattleState) (src tid bid : String)
    (stk rnd : Nat) (dur : ℚ) (data : List (String × ℚ))
    (hnew : ¬ ((getBuffs S tid).any (fun b => b.id = bid))) :
    ({ id := bid, stackCount := max 1 stk, expiresRound := some ((rnd : ℚ) + dur),
       sourceId := some src, data := data } : BuffInst)
      ∈ getBuffs (buffSysAddBuff S src tid bid stk rnd (some dur) data) tid := by
  have hany : ((alGet tid S.buffMap).getD []).any (fun b => (b.id = bid : Bool)) = false := by
    simpa [getBuffs] using hnew
  simp only [buffSysAddBuff, hany, Bool.false_eq_true, if_false, getBuffs, alGet_alSet_self,
    Option.getD_some]
  simp [Option.orElse]

/-- The `apply_dot` branch of `castSkill` records, for a target with no
prior instance of the buff, a fresh single-stack instance whose `sourceId`
is the caster and whose stored `damagePerRound` payload is
`max(1, floor(actor.atk * ratio))`, expiring `duration + 1` rounds later. -/
theorem castSkill_apply_dot_stores (st : BattleState) (actor : Fighter) (skill : Skill)
    (t : Fighter) (hefx : skill.effect = SkillEffect.apply_dot)
    (hres : resolveSkillTargets st actor skill = [t])
    (hnew : ¬ ((getBuffs st t.id).any
      (fun b => b.id = (skill.params.bind (fun q => q.buffId)).getD "burn"))) :
    ∃ st', castSkill st actor skill = some st' ∧
      { id := (skill.params.bind (fun q => q.buffId)).getD "burn",
        stackCount := 1,
        expiresRound := some ((st.round : ℚ) +
          ((skill.params.bind (fun q => q.duration)).getD 2 + 1)),
        sourceId := some actor.id,
        data := [("damagePerRound",
          ((dotDamagePerRound actor.atk ((skill.params.bind (fun q => q.ratio)).getD (2 / 5))
            : Nat) : ℚ))] } ∈ getBuffs st' t.id := by
  simp only [castSkill, hres, hefx, List.isEmpty_cons, Bool.false_eq_true, if_false,
    List.foldl_cons, List.foldl_nil]
  refine ⟨_, rfl, ?_⟩
  set buffId := (skill.params.bind (fun q => q.buffId)).getD "burn" with hbid
  set duration := (skill.params.bind (fun q => q.duration)).getD 2 with hdur
  by_cases hcd : 0 < (max 0 ⌊(skill.cooldown.getD 0 : ℚ)⌋).toNat <;>
    simp only [hcd, if_true, if_false, addBuff, getBuffs_emitE] <;>
    exact mem_getBuffs_buffSysAddBuff_fresh _ actor.id t.id buffId 1 _ (duration + 1) _ hnew

/-- C1 counterexample: with caster attack 1 and ratio 2/5 the stored
per-round payload is `max(1, floor(0.4)) = 1`, while the claim's formula
`floor(caster.atk × ratio)` gives 0 — the tick then deals 1, not 0. -/
theorem burn_payload_counterexample :
    (castSkill exDotSt exDotCaster exDotSkill).map (fun s => getBuffs s "b") =
      some [{ id := "burn", stackCount := 1, expiresRound := some 3, sourceId := some "m",
              data := [("damagePerRound", 1)] }] ∧
    Int.floor ((exDotCaster.atk : ℚ) * (2 / 5)) = 0 ∧
    (castSkill exDotSt exDotCaster exDotSkill).map dotApplications = some [("m", "b", 1)] := by
  refine ⟨?_, ?_, ?_⟩ <;> with_unfolding_all rfl

/-- C1 amended: at each round start after buff expiry, the DOT tick applies,
for every living combatant and every `burn` instance it carries, damage of
`max(1, floor(storedPayload)) * max(1, stacks)` attributed to the combatant
recorded in the instance (the victim only when none is recorded); for an
instance stored by `apply_dot` the amount is exactly the stored payload —
`max(1, floor(caster.atk × ratio))`, not plain `floor` — times the stack
count, and `apply_dot` records the caster as the instance's source. -/
theorem tickDots_burn_tick (st : BattleState) (f : Fighter) (b : BuffInst)
    (hmem : f ∈ st.teamA ++ st.teamB) (halive : 0 < f.hp) (hb : b ∈ getBuffs st f.id)
    (hburn : b.id = "burn") :
    (tickDots st = (dotApplications st).foldl (fun s t => dealDamage s t.1 t.2.1 t.2.2) st) ∧
    (b.sourceId.getD f.id, f.id,
        jsFloorAmount ((alGet "damagePerRound" b.data).getD 0) * max 1 b.stackCount)
      ∈ dotApplications st ∧
    (∀ A ρ, alGet "damagePerRound" b.data = some ((dotDamagePerRound A ρ : Nat) : ℚ) →
      1 ≤ b.stackCount →
      jsFloorAmount ((alGet "damagePerRound" b.data).getD 0) * max 1 b.stackCount =
        dotDamagePerRound A ρ * b.stackCount) ∧
    (∀ (actor : Fighter) (skill : Skill) (t : Fighter),
      skill.effect = SkillEffect.apply_dot →
      resolveSkillTargets st actor skill = [t] →
      ¬ ((getBuffs st t.id).any
        (fun x => x.id = (skill.params.bind (fun q => q.buffId)).getD "burn")) →
      ∃ st', castSkill st actor skill = some st' ∧
        { id := (skill.params.bind (fun q => q.buffId)).getD "burn",
          stackCount := 1,
          expiresRound := some ((st.round : ℚ) +
            ((skill.params.bind (fun q => q.duration)).getD 2 + 1)),
          sourceId := some actor.id,
          data := [("damagePerRound",
            ((dotDamagePerRound actor.atk ((skill.params.bind (fun q => q.ratio)).getD (2 / 5))
              : Nat) : ℚ))] } ∈ getBuffs st' t.id) := by
  refine ⟨rfl, ?_, ?_, ?_⟩
  · rw [dotApplications]
    apply List.mem_flatMap.mpr
    refine ⟨f, List.mem_filter.mpr ⟨hmem, by simpa using halive⟩, ?_⟩
    apply List.mem_filterMap.mpr
    refine ⟨b, hb, ?_⟩
    have hpos : 0 < jsFloorAmount ((alGet "damagePerRound" b.data).getD 0) * max 1 b.stackCount :=
      Nat.mul_pos (jsFloorAmount_pos _) (by omega)
    simp [hburn, hpos]
  · intro A ρ hdata hstk
    rw [hdata]
    simp only [Option.getD_some]
    rw [jsFloorAmount_natCast _ (dotDamagePerRound_pos A ρ)]
    congr 1
    omega
  · intro actor skill t hefx hres hnew
    exact castSkill_apply_dot_stores st actor skill t hefx hres hnew

/-- Witness for the amended C1: `v` carries a two-stack burn from `a` with
payload 7; the tick list contains the 14-damage application from `a`. -/
theorem tickDots_burn_tick_witness :
    (tickDots exBurnSt =
      (dotApplications exBurnSt).foldl (fun s t => dealDamage s t.1 t.2.1 t.2.2) exBurnSt) ∧
    (exBurnB.sourceId.getD exBurnF.id, exBurnF.id,
        jsFloorAmount ((alGet "damagePerRound" exBurnB.data).getD 0) * max 1 exBurnB.stackCount)
      ∈ dotApplications exBurnSt ∧
    (∀ A ρ, alGet "damagePerRound" exBurnB.data = some ((dotDamagePerRound A ρ : Nat) : ℚ) →
      1 ≤ exBurnB.stackCount →
      jsFloorAmount ((alGet "damagePerRound" exBurnB.data).getD 0) * max 1 exBurnB.stackCount =
        dotDamagePerRound A ρ * exBurnB.stackCount) ∧
    (∀ (actor : Fighter) (skill : Skill) (t : Fighter),
      skill.effect = SkillEffect.apply_dot →
      resolveSkillTargets exBurnSt actor skill = [t] →
      ¬ ((getBuffs exBurnSt t.id).any
        (fun x => x.id = (skill.params.bind (fun q => q.buffId)).getD "burn")) →
      ∃ st', castSkill exBurnSt actor skill = some st' ∧
        { id := (skill.params.bind (fun q => q.buffId)).getD "burn",
          stackCount := 1,
          expiresRound := some ((exBurnSt.round : ℚ) +
            ((skill.params.bind (fun q => q.duration)).getD 2 + 1)),
          sourceId := some actor.id,
          data := [("damagePerRound",
            ((dotDamagePerRound actor.atk ((skill.params.bind (fun q => q.ratio)).getD (2 / 5))
              : Nat) : ℚ))] } ∈ getBuffs st' t.id) :=
  tickDots_burn_tick exBurnSt exBurnF exBurnB (by decide) (by decide) (by decide) (by decide)


/-! ## Round-loop preservation machinery and the HP bounds (C5) -/


theorem foldl_preserve {α : Type} {Q : BattleState → Prop} (f : BattleState → α → BattleState)
    (hf : ∀ s x, Q s → Q (f s x)) (l : List α) (s : BattleState) (h : Q s) :
    Q (l.foldl f s) := by
  induction l generalizing s with
  | nil => exact h
  | cons x xs ih => exact ih (f s x) (hf s x h)

/-- Any state predicate preserved by each primitive mutation is preserved by
a whole simulation round (and hence by the full battle loop). -/
theorem stepRound_preserve {Q : BattleState → Prop}
    (hdeal : ∀ st a b n, Q st → Q (dealDamage st a b n))
    (hheal : ∀ st a b n, Q st → Q (heal st a b n))
    (hshield : ∀ st a b n, Q st → Q (applyShield st a b n))
    (hbuff : ∀ st a b c s d e, Q st → Q (addBuff st a b c s d e))
    (hemit : ∀ st r aid, Q st → Q (emitE st (BattleEvent.actorTurn r aid)))
    (hemitRS : ∀ st r, Q st → Q (emitE st (BattleEvent.roundStart r)))
    (hstat : ∀ st k g, Q st → Q (statUpdate st k g))
    (hsetcd : ∀ st a s v, Q st → Q (setCooldown st a s v))
    (hreduce : ∀ st, Q st → Q (reduceCooldowns st))
    (hexpiry : ∀ st r, Q st → Q (buffsOnRoundStart st r))
    (hcheck : ∀ st, Q st → Q (checkBattleEnd st))
    (hfinishDraw : ∀ st, Q st → Q (finish st Winner.Draw))
    (hrng : ∀ st, Q st → Q { st with rngIdx := st.rngIdx + 1 })
    (p : BattleParams) (st : BattleState)
    (hround : Q st → Q { st with round := st.round + 1 })
    (h : Q st) : Q (stepRound p st) := by
  have hcast : ∀ st actor skill st', castSkill st actor skill = some st' → Q st → Q st' := by
    intro s actor skill s' hc hs
    unfold castSkill at hc
    dsimp only at hc
    by_cases hempty : (resolveSkillTargets s actor skill).isEmpty
    · rw [if_pos hempty] at hc
      cases hc
    · rw [if_neg hempty] at hc
      rcases Option.some_inj.mp hc with rfl
      have h1 : Q (recordSkillCast s actor.id skill.id) := hstat _ _ _ hs
      have h2 : ∀ v, Q (setCooldown (recordSkillCast s actor.id skill.id) actor.id skill.id v) :=
        fun v => hsetcd _ _ _ _ h1
      cases hfx : skill.effect <;> simp only [hfx]
      · refine foldl_preserve _ (fun u x hq => hdeal _ _ _ _ hq) _ _ ?_
        split_ifs
        · exact h2 _
        · exact h1
      · refine foldl_preserve _ (fun u x hq => hheal _ _ _ _ hq) _ _ ?_
        split_ifs
        · exact h2 _
        · exact h1
      · refine foldl_preserve _ (fun u x hq => hshield _ _ _ _ hq) _ _ ?_
        split_ifs
        · exact h2 _
        · exact h1
      · split_ifs <;>
          first
            | exact foldl_preserve _ (fun u x hq => hshield _ _ _ _ hq) _ _
                (foldl_preserve _ (fun u x hq => hbuff _ _ _ _ _ _ _ hq) _ _ (h2 _))
            | exact foldl_preserve _ (fun u x hq => hshield _ _ _ _ hq) _ _
                (foldl_preserve _ (fun u x hq => hbuff _ _ _ _ _ _ _ hq) _ _ h1)
            | exact foldl_preserve _ (fun u x hq => hshield _ _ _ _ hq) _ _ (h2 _)
            | exact foldl_preserve _ (fun u x hq => hshield _ _ _ _ hq) _ _ h1
            | exact foldl_preserve _ (fun u x hq => hbuff _ _ _ _ _ _ _ hq) _ _ (h2 _)
            | exact foldl_preserve _ (fun u x hq => hbuff _ _ _ _ _ _ _ hq) _ _ h1
            | exact h2 _
            | exact h1
      · refine foldl_preserve _ (fun u x hq => hbuff _ _ _ _ _ _ _ hq) _ _ ?_
        split_ifs
        · exact h2 _
        · exact h1
  have hbasic : ∀ st actor, Q st → Q (performBasicAttack p st actor) := by
    intro s actor hs
    unfold performBasicAttack
    cases hsel : selectTarget s actor (enemyTeamOf s actor) with
    | none => exact hs
    | some t => exact hdeal _ _ _ _ (hrng _ hs)
  have hact : ∀ st actor, Q st → Q (performAction p st actor) := by
    intro s actor hs
    unfold performAction
    cases hp1 : pickSkill p s actor with
    | none => exact hbasic _ _ hs
    | some sid =>
      try dsimp only
      cases hp2 : alGet sid p.skillMap with
      | none => exact hbasic _ _ hs
      | some skill =>
        try dsimp only
        cases hp3 : castSkill s actor skill with
        | none => exact hbasic _ _ hs
        | some s' => exact hcast _ _ _ _ hp3 hs
  have hstep : ∀ st r, Q st → Q (actStep p st r) := by
    intro s r hs
    unfold actStep
    try dsimp only
    split_ifs with h1
    · exact hs
    · cases hr : refGet s r with
      | none => exact hs
      | some actor =>
        try dsimp only
        split_ifs with h2
        · exact hs
        · exact hcheck _ (hact _ _ (hemit _ _ _ hs))
  have htick : ∀ s, Q s → Q (tickDots s) := fun s hs =>
    foldl_preserve _ (fun u x hq => hdeal _ _ _ _ hq) _ _ hs
  unfold stepRound
  try dsimp only
  split_ifs with h1 h2
  · exact h
  · exact hfinishDraw _ (foldl_preserve (actStep p) hstep _ _
      (hreduce _ (htick _ (hexpiry _ _ (hemitRS _ _ (hround h))))))
  · exact foldl_preserve (actStep p) hstep _ _
      (hreduce _ (htick _ (hexpiry _ _ (hemitRS _ _ (hround h)))))



theorem mapFirst_forall_find {α : Type} {Q : α → Prop} (p : α → Bool) (g : α → α) (l : List α)
    (h : ∀ x ∈ l, Q x) (hg : ∀ x, l.find? p = some x → Q x → Q (g x)) :
    ∀ y ∈ mapFirst p g l, Q y := by
  induction l with
  | nil => simp [mapFirst]
  | cons x xs ih =>
    intro y hy
    by_cases hx : p x = true
    · rw [mapFirst, if_pos hx] at hy
      rcases List.mem_cons.mp hy with h1 | h2
      · have hfind : (x :: xs).find? p = some x := by simp [List.find?_cons, hx]
        exact h1 ▸ hg x hfind (h x (List.mem_cons_self x xs))
      · exact h y (List.mem_cons_of_mem x h2)
    · rw [mapFirst, if_neg hx] at hy
      rcases List.mem_cons.mp hy with h1 | h2
      · exact h1 ▸ h x (List.mem_cons_self x xs)
      · refine ih (fun z hz => h z (List.mem_cons_of_mem x hz)) ?_ y h2
        intro z hfind hz
        refine hg z ?_ hz
        simp [List.find?_cons, hx, hfind]

theorem hpBounded_mapHpFirst (st : BattleState) (id : String) (g : Nat → Nat)
    (hb : hpBounded st)
    (hg : ∀ x : Fighter, findFighter st id = some x → x.hp ≤ x.maxHp → g x.hp ≤ x.maxHp) :
    hpBounded (mapHpFirst st id g) := by
  intro f hf
  unfold mapHpFirst at hf
  by_cases hA : st.teamA.any (fun f => f.id = id)
  · rw [if_pos hA] at hf
    rcases List.mem_append.mp hf with h1 | h2
    · refine mapFirst_forall_find _ _ st.teamA
        (fun x hx => hb x (List.mem_append_left _ hx)) ?_ f h1
      intro x hfind hx
      have hff : findFighter st id = some x := by
        simp [findFighter, List.find?_append, hfind]
      exact hg x hff hx
    · exact hb f (List.mem_append_right _ h2)
  · rw [if_neg hA] at hf
    rcases List.mem_append.mp hf with h1 | h2
    · exact hb f (List.mem_append_left _ h1)
    · have hnone : st.teamA.find? (fun f => (f.id = id : Bool)) = none := by
        rw [List.find?_eq_none]
        intro x hx hpx
        exact hA (List.any_eq_true.mpr ⟨x, hx, hpx⟩)
      refine mapFirst_forall_find _ _ st.teamB
        (fun x hx => hb x (List.mem_append_right _ hx)) ?_ f h2
      intro x hfind hx
      have hff : findFighter st id = some x := by
        simp [findFighter, List.find?_append, hnone, hfind]
      exact hg x hff hx

theorem hpBounded_of_teams (st st' : BattleState) (hA : st'.teamA = st.teamA)
    (hB : st'.teamB = st.teamB) (hb : hpBounded st) : hpBounded st' := by
  rw [hpBounded, hA, hB]
  exact hb

theorem mapHpFirst_teamA (st : BattleState) (id : String) (g : Nat → Nat) :
    (mapHpFirst st id g).teamA =
      if st.teamA.any (fun f => f.id = id) then
        mapFirst (fun f => f.id = id) (fun f => { f with hp := g f.hp }) st.teamA
      else st.teamA := by
  unfold mapHpFirst
  split_ifs <;> rfl

theorem mapHpFirst_teamB (st : BattleState) (id : String) (g : Nat → Nat) :
    (mapHpFirst st id g).teamB =
      if st.teamA.any (fun f => f.id = id) then st.teamB
      else mapFirst (fun f => f.id = id) (fun f => { f with hp := g f.hp }) st.teamB := by
  unfold mapHpFirst
  split_ifs <;> rfl

theorem teams_dealDamage (st : BattleState) (a b : String) (n : Nat) :
    ((dealDamage st a b n).teamA = st.teamA ∧ (dealDamage st a b n).teamB = st.teamB) ∨
    ((dealDamage st a b n).teamA = (mapHpFirst st b (fun h => h - postShield st b n)).teamA ∧
     (dealDamage st a b n).teamB = (mapHpFirst st b (fun h => h - postShield st b n)).teamB) := by
  simp only [postShield, rawDamage, shieldOf]
  unfold dealDamage
  cases hfind : findFighter st b with
  | none => exact Or.inl ⟨rfl, rfl⟩
  | some f =>
    try dsimp only
    split_ifs with h1 h2 h3 h4 h5 h6 h7 h8 h9 <;>
      first
        | exact Or.inl ⟨rfl, rfl⟩
        | (right
           constructor <;>
             simp only [emitE, statUpdate, mapHpFirst_teamA, mapHpFirst_teamB])

theorem hpBounded_dealDamage (st : BattleState) (a b : String) (n : Nat)
    (hb : hpBounded st) : hpBounded (dealDamage st a b n) := by
  rcases teams_dealDamage st a b n with ⟨hA, hB⟩ | ⟨hA, hB⟩
  · exact hpBounded_of_teams st _ hA hB hb
  · exact hpBounded_of_teams (mapHpFirst st b (fun h => h - postShield st b n)) _ hA hB
      (hpBounded_mapHpFirst st b _ hb (fun x hx hbx => by omega))

theorem teams_heal (st : BattleState) (a b : String) (n : Nat) :
    ((heal st a b n).teamA = st.teamA ∧ (heal st a b n).teamB = st.teamB) ∨
    (∃ f, findFighter st b = some f ∧ ¬ f.hp = 0 ∧
      (heal st a b n).teamA = (mapHpFirst st b (fun h => min f.maxHp (h + max 1 n))).teamA ∧
      (heal st a b n).teamB = (mapHpFirst st b (fun h => min f.maxHp (h + max 1 n))).teamB) := by
  unfold heal
  cases hfind : findFighter st b with
  | none => exact Or.inl ⟨rfl, rfl⟩
  | some f =>
    try dsimp only
    split_ifs with h1
    · exact Or.inl ⟨rfl, rfl⟩
    · exact Or.inr ⟨f, rfl, h1, rfl, rfl⟩

theorem hpBounded_heal (st : BattleState) (a b : String) (n : Nat)
    (hb : hpBounded st) : hpBounded (heal st a b n) := by
  rcases teams_heal st a b n with ⟨hA, hB⟩ | ⟨f, hfind, hne, hA, hB⟩
  · exact hpBounded_of_teams st _ hA hB hb
  · refine hpBounded_of_teams _ _ hA hB
      (hpBounded_mapHpFirst st b _ hb (fun x hx hbx => ?_))
    rw [hfind] at hx
    injection hx with hx
    subst hx
    omega

theorem hpBounded_applyShield (st : BattleState) (a b : String) (n : Nat)
    (hb : hpBounded st) : hpBounded (applyShield st a b n) := by
  unfold applyShield
  cases hfind : findFighter st b with
  | none => exact hb
  | some f =>
    try dsimp only
    split_ifs with h1
    · exact hb
    · exact hpBounded_of_teams st _ rfl rfl hb

theorem hpBounded_addBuff (st : BattleState) (a b c : String) (s : Nat) (d : Option ℚ)
    (e : List (String × ℚ)) (hb : hpBounded st) : hpBounded (addBuff st a b c s d e) :=
  hpBounded_of_teams st _ rfl rfl hb

theorem hpBounded_finish (st : BattleState) (w : Winner) (hb : hpBounded st) :
    hpBounded (finish st w) := by
  unfold finish
  split_ifs with h1
  · exact hb
  · exact hpBounded_of_teams st _ rfl rfl hb

theorem hpBounded_checkBattleEnd (st : BattleState) (hb : hpBounded st) :
    hpBounded (checkBattleEnd st) := by
  unfold checkBattleEnd
  dsimp only
  split_ifs <;> first | exact hb | exact hpBounded_finish _ _ hb

theorem hpBounded_stepRound (p : BattleParams) (st : BattleState) (hb : hpBounded st) :
    hpBounded (stepRound p st) :=
  stepRound_preserve hpBounded_dealDamage hpBounded_heal hpBounded_applyShield
    hpBounded_addBuff
    (fun st _ _ hq => hpBounded_of_teams st _ rfl rfl hq)
    (fun st _ hq => hpBounded_of_teams st _ rfl rfl hq)
    (fun st _ _ hq => hpBounded_of_teams st _ rfl rfl hq)
    (fun st _ _ _ hq => hpBounded_of_teams st _ rfl rfl hq)
    (fun st hq => hpBounded_of_teams st _ rfl rfl hq)
    (fun st _ hq => hpBounded_of_teams st _ rfl rfl hq)
    hpBounded_checkBattleEnd
    (fun st hq => hpBounded_finish st Winner.Draw hq)
    (fun st hq => hpBounded_of_teams st _ rfl rfl hq)
    p st
    (fun hq => hpBounded_of_teams st _ rfl rfl hq)
    hb

theorem hpBounded_runLoop (p : BattleParams) (k : Nat) (st : BattleState)
    (hb : hpBounded st) : hpBounded (runLoop p k st) := by
  induction k generalizing st with
  | zero => exact hb
  | succ m ih =>
    unfold runLoop
    split_ifs with h1
    · exact hb
    · exact ih _ (hpBounded_stepRound p st hb)

theorem hpBounded_runToEnd (p : BattleParams) (st : BattleState) (hb : hpBounded st) :
    hpBounded (runToEnd p st) := by
  unfold runToEnd runToEndWith
  try dsimp only
  split_ifs with h1
  · exact hpBounded_runLoop p 30 st hb
  · exact hpBounded_finish _ _ (hpBounded_runLoop p 30 st hb)

/-- C5 counterexample: `init` clones the input roster without clamping, so
a roster entry with `hp 2 > maxHp 1` violates `0 ≤ hp ≤ maxHp` already at
battle start — the bound does not hold "for any input roster". -/
theorem hp_bounds_counterexample :
    ¬ hpBounded (init ⟨[exBad], [exB], none⟩) ∧
    hpOf (init ⟨[exBad], [exB], none⟩) "x" = some 2 ∧
    (findFighter (init ⟨[exBad], [exB], none⟩) "x").map (fun f => f.maxHp) = some 1 := by
  refine ⟨?_, by decide, by decide⟩
  intro h
  exact absurd (h exBad (by decide)) (by decide)

/-- C5 amended: provided every combatant of the input roster satisfies
`hp ≤ maxHp` (non-negativity holds by typing), the bound holds at battle
start and is preserved by every hp-writing operation (`dealDamage`,
`heal`), by each simulation round and by the whole battle loop. -/
theorem hp_bounds (p : BattleParams) (setup : BattleSetup) (src tgt : String) (n : Nat) :
    ((∀ f ∈ setup.teamA ++ setup.teamB, f.hp ≤ f.maxHp) → hpBounded (init setup)) ∧
    (∀ st, hpBounded st → hpBounded (dealDamage st src tgt n)) ∧
    (∀ st, hpBounded st → hpBounded (heal st src tgt n)) ∧
    (∀ st, hpBounded st → hpBounded (stepRound p st)) ∧
    (∀ st k, hpBounded st → hpBounded (runLoop p k st)) ∧
    (∀ st, hpBounded st → hpBounded (runToEnd p st)) :=
  ⟨fun h f hf => h f hf,
   fun st hb => hpBounded_dealDamage st src tgt n hb,
   fun st hb => hpBounded_heal st src tgt n hb,
   fun st hb => hpBounded_stepRound p st hb,
   fun st k hb => hpBounded_runLoop p k st hb,
   fun st hb => hpBounded_runToEnd p st hb⟩

/-- Witness for the amended C5 on a concrete bounded roster. -/
theorem hp_bounds_witness :
    hpBounded (init ⟨[exA], [exB], none⟩) ∧
    hpBounded (runToEnd exP (init ⟨[exA], [exB], none⟩)) :=
  ⟨(hp_bounds exP ⟨[exA], [exB], none⟩ "a" "b" 1).1 (by decide),
   (hp_bounds exP ⟨[exA], [exB], none⟩ "a" "b" 1).2.2.2.2.2 _
     ((hp_bounds exP ⟨[exA], [exB], none⟩ "a" "b" 1).1 (by decide))⟩

/-! ## Claim: determinism given a fixed rng stream (C9) -/

/-- C9: the battle simulation is a pure function of the setup, the rule
table, the variance bounds and the injected rng stream — two runs of
`init` + `runToEnd` whose rng streams agree on every draw produce
identical event logs (same events, same payloads, same order). -/
theorem battle_deterministic_given_rng (tbl : List (String × Skill)) (vmin vmax : ℚ)
    (rng1 rng2 : Nat → ℚ) (setup : BattleSetup) (h : ∀ i, rng1 i = rng2 i) :
    (runToEnd ⟨tbl, rng1, vmin, vmax⟩ (init setup)).events =
      (runToEnd ⟨tbl, rng2, vmin, vmax⟩ (init setup)).events := by
  have hr : rng1 = rng2 := funext h
  rw [hr]

/-- Witness for C9 with two syntactically different but pointwise-equal
rng streams. -/
theorem battle_deterministic_given_rng_witness :
    (runToEnd ⟨[], fun _ => 1 / 2, 17 / 20, 23 / 20⟩ (init ⟨[exA], [exB], none⟩)).events =
      (runToEnd ⟨[], fun _ => 2 / 4, 17 / 20, 23 / 20⟩ (init ⟨[exA], [exB], none⟩)).events :=
  battle_deterministic_given_rng [] (17 / 20) (23 / 20) (fun _ => 1 / 2) (fun _ => 2 / 4)
    ⟨[exA], [exB], none⟩ (fun _ => by norm_num)

/-! ## Termination and outcome soundness (C6) -/

theorem dealDamage_round (st : BattleState) (a b : String) (n : Nat) :
    (dealDamage st a b n).round = st.round := by
  unfold dealDamage
  cases hfind : findFighter st b with
  | none => rfl
  | some f =>
    try dsimp only
    split_ifs <;> simp only [emitE, statUpdate, mapHpFirst_round]

theorem dealDamage_over (st : BattleState) (a b : String) (n : Nat) :
    (dealDamage st a b n).over = st.over := by
  unfold dealDamage
  cases hfind : findFighter st b with
  | none => rfl
  | some f =>
    try dsimp only
    split_ifs <;> simp only [emitE, statUpdate, mapHpFirst_over]

theorem dealDamage_skillCooldowns (st : BattleState) (a b : String) (n : Nat) :
    (dealDamage st a b n).skillCooldowns = st.skillCooldowns := by
  unfold dealDamage
  cases hfind : findFighter st b with
  | none => rfl
  | some f =>
    try dsimp only
    split_ifs <;> simp only [emitE, statUpdate, mapHpFirst_skillCooldowns]

theorem heal_round (st : BattleState) (a b : String) (n : Nat) :
    (heal st a b n).round = st.round := by
  unfold heal
  cases hfind : findFighter st b with
  | none => rfl
  | some f =>
    try dsimp only
    split_ifs <;> simp only [emitE, statUpdate, mapHpFirst_round]

theorem heal_over (st : BattleState) (a b : String) (n : Nat) :
    (heal st a b n).over = st.over := by
  unfold heal
  cases hfind : findFighter st b with
  | none => rfl
  | some f =>
    try dsimp only
    split_ifs <;> simp only [emitE, statUpdate, mapHpFirst_over]

theorem heal_skillCooldowns (st : BattleState) (a b : String) (n : Nat) :
    (heal st a b n).skillCooldowns = st.skillCooldowns := by
  unfold heal
  cases hfind : findFighter st b with
  | none => rfl
  | some f =>
    try dsimp only
    split_ifs <;> simp only [emitE, statUpdate, mapHpFirst_skillCooldowns]

theorem applyShield_round (st : BattleState) (a b : String) (n : Nat) :
    (applyShield st a b n).round = st.round := by
  unfold applyShield
  cases hfind : findFighter st b with
  | none => rfl
  | some f =>
    try dsimp only
    split_ifs <;> rfl

theorem applyShield_over (st : BattleState) (a b : String) (n : Nat) :
    (applyShield st a b n).over = st.over := by
  unfold applyShield
  cases hfind : findFighter st b with
  | none => rfl
  | some f =>
    try dsimp only
    split_ifs <;> rfl

theorem applyShield_teams (st : BattleState) (a b : String) (n : Nat) :
    (applyShield st a b n).teamA = st.teamA ∧ (applyShield st a b n).teamB = st.teamB := by
  unfold applyShield
  cases hfind : findFighter st b with
  | none => exact ⟨rfl, rfl⟩
  | some f =>
    try dsimp only
    split_ifs <;> exact ⟨rfl, rfl⟩

theorem applyShield_events (st : BattleState) (a b : String) (n : Nat) :
    (applyShield st a b n).events = st.events := by
  unfold applyShield
  cases hfind : findFighter st b with
  | none => rfl
  | some f =>
    try dsimp only
    split_ifs <;> rfl

theorem applyShield_skillCooldowns (st : BattleState) (a b : String) (n : Nat) :
    (applyShield st a b n).skillCooldowns = st.skillCooldowns := by
  unfold applyShield
  cases hfind : findFighter st b with
  | none => rfl
  | some f =>
    try dsimp only
    split_ifs <;> rfl

theorem battleEnd_mem_dealDamage (st : BattleState) (a b : String) (n : Nat) (w : Winner) :
    BattleEvent.battleEnd w ∈ (dealDamage st a b n).events ↔
      BattleEvent.battleEnd w ∈ st.events := by
  unfold dealDamage
  cases hfind : findFighter st b with
  | none => exact Iff.rfl
  | some f =>
    try dsimp only
    split_ifs <;>
      simp [emitE, statUpdate, mapHpFirst_events, List.mem_append]

theorem battleEnd_mem_heal (st : BattleState) (a b : String) (n : Nat) (w : Winner) :
    BattleEvent.battleEnd w ∈ (heal st a b n).events ↔
      BattleEvent.battleEnd w ∈ st.events := by
  unfold heal
  cases hfind : findFighter st b with
  | none => exact Iff.rfl
  | some f =>
    try dsimp only
    split_ifs <;>
      simp [emitE, statUpdate, mapHpFirst_events, List.mem_append]

theorem battleEnd_mem_addBuff (st : BattleState) (a b c : String) (s : Nat) (d : Option ℚ)
    (e : List (String × ℚ)) (w : Winner) :
    BattleEvent.battleEnd w ∈ (addBuff st a b c s d e).events ↔
      BattleEvent.battleEnd w ∈ st.events := by
  simp [addBuff, emitE, buffSysAddBuff, List.mem_append]


theorem endEventsSound_of (st st' : BattleState)
    (hev : ∀ w, BattleEvent.battleEnd w ∈ st'.events ↔ BattleEvent.battleEnd w ∈ st.events)
    (hA : allDead st.teamA → allDead st'.teamA)
    (hB : allDead st.teamB → allDead st'.teamB)
    (hover : st'.over = st.over)
    (h : endEventsSound st) : endEventsSound st' := by
  obtain ⟨h1, h2, h3⟩ := h
  refine ⟨fun hm => hB (h1 ((hev _).mp hm)), fun hm => hA (h2 ((hev _).mp hm)), fun ho => ?_⟩
  obtain ⟨w, hw⟩ := h3 (hover ▸ ho)
  exact ⟨w, (hev w).mpr hw⟩

theorem allDead_mapHpFirst_A (st : BattleState) (id : String) (g : Nat → Nat)
    (hg : ∀ x : Fighter, findFighter st id = some x → x.hp = 0 → g x.hp = 0)
    (h : allDead st.teamA) : allDead (mapHpFirst st id g).teamA := by
  rw [mapHpFirst_teamA]
  split_ifs with hA
  · refine mapFirst_forall_find _ _ st.teamA h ?_
    intro x hfind hx
    have hff : findFighter st id = some x := by
      simp [findFighter, List.find?_append, hfind]
    exact hg x hff hx
  · exact h

theorem allDead_mapHpFirst_B (st : BattleState) (id : String) (g : Nat → Nat)
    (hg : ∀ x : Fighter, findFighter st id = some x → x.hp = 0 → g x.hp = 0)
    (h : allDead st.teamB) : allDead (mapHpFirst st id g).teamB := by
  rw [mapHpFirst_teamB]
  split_ifs with hA
  · exact h
  · have hnone : st.teamA.find? (fun f => (f.id = id : Bool)) = none := by
      rw [List.find?_eq_none]
      intro x hx hpx
      exact hA (List.any_eq_true.mpr ⟨x, hx, hpx⟩)
    refine mapFirst_forall_find _ _ st.teamB h ?_
    intro x hfind hx
    have hff : findFighter st id = some x := by
      simp [findFighter, List.find?_append, hnone, hfind]
    exact hg x hff hx

theorem endSound_dealDamage (st : BattleState) (a b : String) (n : Nat)
    (h : endEventsSound st) : endEventsSound (dealDamage st a b n) := by
  refine endEventsSound_of st _ (battleEnd_mem_dealDamage st a b n) ?_ ?_
    (dealDamage_over st a b n) h
  · intro hd
    rcases teams_dealDamage st a b n with ⟨hA, hB⟩ | ⟨hA, hB⟩
    · rw [hA]
      exact hd
    · rw [hA]
      exact allDead_mapHpFirst_A st b _ (fun x _ hx => by omega) hd
  · intro hd
    rcases teams_dealDamage st a b n with ⟨hA, hB⟩ | ⟨hA, hB⟩
    · rw [hB]
      exact hd
    · rw [hB]
      exact allDead_mapHpFirst_B st b _ (fun x _ hx => by omega) hd

theorem endSound_heal (st : BattleState) (a b : String) (n : Nat)
    (h : endEventsSound st) : endEventsSound (heal st a b n) := by
  refine endEventsSound_of st _ (battleEnd_mem_heal st a b n) ?_ ?_
    (heal_over st a b n) h
  · intro hd
    rcases teams_heal st a b n with ⟨hA, hB⟩ | ⟨f, hfind, hne, hA, hB⟩
    · rw [hA]
      exact hd
    · rw [hA]
      refine allDead_mapHpFirst_A st b _ (fun x hx hx0 => ?_) hd
      rw [hfind] at hx
      injection hx with hx
      subst hx
      exact absurd hx0 hne
  · intro hd
    rcases teams_heal st a b n with ⟨hA, hB⟩ | ⟨f, hfind, hne, hA, hB⟩
    · rw [hB]
      exact hd
    · rw [hB]
      refine allDead_mapHpFirst_B st b _ (fun x hx hx0 => ?_) hd
      rw [hfind] at hx
      injection hx with hx
      subst hx
      exact absurd hx0 hne

theorem endSound_applyShield (st : BattleState) (a b : String) (n : Nat)
    (h : endEventsSound st) : endEventsSound (applyShield st a b n) := by
  refine endEventsSound_of st _ (fun w => by rw [applyShield_events]) ?_ ?_
    (applyShield_over st a b n) h
  · rw [(applyShield_teams st a b n).1]
    exact id
  · rw [(applyShield_teams st a b n).2]
    exact id

theorem endSound_addBuff (st : BattleState) (a b c : String) (s : Nat) (d : Option ℚ)
    (e : List (String × ℚ)) (h : endEventsSound st) :
    endEventsSound (addBuff st a b c s d e) :=
  endEventsSound_of st _ (battleEnd_mem_addBuff st a b c s d e) id id rfl h

theorem allDead_of_not_any (team : List Fighter)
    (h : team.any (fun f => 0 < f.hp) = false) : allDead team := by
  intro f hf
  have := List.any_eq_false.mp h f hf
  simpa using this

theorem endSound_finish (st : BattleState) (w : Winner)
    (hwa : w = Winner.A → allDead st.teamB) (hwb : w = Winner.B → allDead st.teamA)
    (h : endEventsSound st) : endEventsSound (finish st w) := by
  unfold finish
  split_ifs with hov
  · exact h
  · obtain ⟨h1, h2, h3⟩ := h
    refine ⟨?_, ?_, ?_⟩
    · intro hm
      rcases List.mem_append.mp hm with hm | hm
      · exact h1 hm
      · simp only [List.mem_singleton, BattleEvent.battleEnd.injEq] at hm
        exact hwa hm.symm
    · intro hm
      rcases List.mem_append.mp hm with hm | hm
      · exact h2 hm
      · simp only [List.mem_singleton, BattleEvent.battleEnd.injEq] at hm
        exact hwb hm.symm
    · intro _
      exact ⟨w, List.mem_append_right _ (List.mem_singleton.mpr rfl)⟩

theorem endSound_checkBattleEnd (st : BattleState) (h : endEventsSound st) :
    endEventsSound (checkBattleEnd st) := by
  unfold checkBattleEnd
  dsimp only
  split_ifs with h1 h2 h3
  · exact h
  · refine endSound_finish st Winner.A (fun _ => ?_) (fun hw => by cases hw) h
    simp only [Bool.and_eq_true, Bool.not_eq_true'] at h2
    exact allDead_of_not_any _ h2.2
  · refine endSound_finish st Winner.B (fun hw => by cases hw) (fun _ => ?_) h
    simp only [Bool.and_eq_true, Bool.not_eq_true'] at h3
    exact allDead_of_not_any _ h3.1
  · exact endSound_finish st Winner.Draw (fun hw => by cases hw) (fun hw => by cases hw) h


theorem battleEnd_mem_emitE (st : BattleState) (e : BattleEvent) (w : Winner)
    (he : BattleEvent.battleEnd w ≠ e) :
    (BattleEvent.battleEnd w ∈ (emitE st e).events ↔ BattleEvent.battleEnd w ∈ st.events) := by
  simp [emitE, List.mem_append, he]

theorem endSound_emitE (st : BattleState) (e : BattleEvent)
    (he : ∀ w, BattleEvent.battleEnd w ≠ e)
    (h : endEventsSound st) : endEventsSound (emitE st e) :=
  endEventsSound_of st _ (fun w => battleEnd_mem_emitE st e w (he w)) id id rfl h

theorem endSound_frame (st st' : BattleState) (hev : st'.events = st.events)
    (hA : st'.teamA = st.teamA) (hB : st'.teamB = st.teamB) (hover : st'.over = st.over)
    (h : endEventsSound st) : endEventsSound st' :=
  endEventsSound_of st st' (fun w => by rw [hev]) (fun hd => hA ▸ hd) (fun hd => hB ▸ hd) hover h

theorem endSound_stepRound (p : BattleParams) (st : BattleState) (h : endEventsSound st) :
    endEventsSound (stepRound p st) :=
  stepRound_preserve endSound_dealDamage endSound_heal endSound_applyShield endSound_addBuff
    (fun s r aid hq => endSound_emitE s _ (fun w => by simp) hq)
    (fun s r hq => endSound_emitE s _ (fun w => by simp) hq)
    (fun s k g hq => endSound_frame s _ rfl rfl rfl rfl hq)
    (fun s a sk v hq => endSound_frame s _ rfl rfl rfl rfl hq)
    (fun s hq => endSound_frame s _ rfl rfl rfl rfl hq)
    (fun s r hq => endSound_frame s _ rfl rfl rfl rfl hq)
    endSound_checkBattleEnd
    (fun s hq => endSound_finish s Winner.Draw (fun hw => nomatch hw) (fun hw => nomatch hw) hq)
    (fun s hq => endSound_frame s _ rfl rfl rfl rfl hq)
    p st
    (fun hq => endSound_frame st _ rfl rfl rfl rfl hq)
    h

theorem endSound_runLoop (p : BattleParams) (k : Nat) (st : BattleState)
    (h : endEventsSound st) : endEventsSound (runLoop p k st) := by
  induction k generalizing st with
  | zero => exact h
  | succ m ih =>
    unfold runLoop
    split_ifs with h1
    · exact h
    · exact ih _ (endSound_stepRound p st h)

theorem endSound_runToEnd (p : BattleParams) (st : BattleState) (h : endEventsSound st) :
    endEventsSound (runToEnd p st) := by
  unfold runToEnd runToEndWith
  dsimp only
  split_ifs with h1
  · exact endSound_runLoop p 30 st h
  · exact endSound_finish _ Winner.Draw (fun hw => nomatch hw) (fun hw => nomatch hw)
      (endSound_runLoop p 30 st h)

theorem endSound_init (setup : BattleSetup) : endEventsSound (init setup) := by
  refine ⟨fun hm => ?_, fun hm => ?_, fun ho => ?_⟩
  · simp [init] at hm
  · simp [init] at hm
  · simp [init] at ho

theorem over_runToEnd (p : BattleParams) (st : BattleState) : (runToEnd p st).over = true := by
  unfold runToEnd runToEndWith
  dsimp only
  split_ifs with h1
  · exact h1
  · unfold finish
    rw [if_neg h1]
    rfl

theorem round_finish (st : BattleState) (w : Winner) : (finish st w).round = st.round := by
  unfold finish
  split_ifs <;> rfl

theorem round_checkBattleEnd (st : BattleState) : (checkBattleEnd st).round = st.round := by
  unfold checkBattleEnd
  dsimp only
  split_ifs <;> first | rfl | exact round_finish _ _

theorem round_stepRound (p : BattleParams) (st : BattleState) :
    (stepRound p st).round ≤ st.round + 1 :=
  @stepRound_preserve (fun s => s.round ≤ st.round + 1)
    (fun s a b n hq => by dsimp only; rw [dealDamage_round]; exact hq)
    (fun s a b n hq => by dsimp only; rw [heal_round]; exact hq)
    (fun s a b n hq => by dsimp only; rw [applyShield_round]; exact hq)
    (fun s a b c k d e hq => hq)
    (fun s r aid hq => hq)
    (fun s r hq => hq)
    (fun s k g hq => hq)
    (fun s a k v hq => hq)
    (fun s hq => hq)
    (fun s r hq => hq)
    (fun s hq => by dsimp only; rw [round_checkBattleEnd]; exact hq)
    (fun s hq => by dsimp only; rw [round_finish]; exact hq)
    (fun s hq => hq)
    p st
    (fun _ => Nat.le_refl _)
    (Nat.le_succ _)

theorem round_runLoop (p : BattleParams) (k : Nat) (st : BattleState) :
    (runLoop p k st).round ≤ st.round + k := by
  induction k generalizing st with
  | zero => exact Nat.le_refl _
  | succ m ih =>
    unfold runLoop
    split_ifs with h1
    · omega
    · have h2 := round_stepRound p st
      have h3 := ih (stepRound p st)
      omega

theorem round_runToEnd (p : BattleParams) (st : BattleState) :
    (runToEnd p st).round ≤ st.round + 30 := by
  unfold runToEnd runToEndWith
  dsimp only
  split_ifs with h1
  · exact round_runLoop p 30 st
  · rw [round_finish]
    exact round_runLoop p 30 st

theorem round_init (setup : BattleSetup) : (init setup).round = 0 := rfl

/-- C6: for every setup with non-empty rosters, `runToEnd` with the default
cap ends the battle (`over = true`), the final round counter is at most 30
(and after `k` loop iterations at most `k`), and when neither roster has
been wiped out at that point the emitted outcome is `Draw`: a `battleEnd
Draw` event is in the log and every `battleEnd` event in the log names
`Draw`. -/
theorem runToEnd_terminates (p : BattleParams) (setup : BattleSetup)
    (_hA : setup.teamA ≠ []) (_hB : setup.teamB ≠ []) :
    (runToEnd p (init setup)).over = true ∧
    (runToEnd p (init setup)).round ≤ 30 ∧
    (∀ k, (runLoop p k (init setup)).round ≤ k) ∧
    ((¬ allDead (runToEnd p (init setup)).teamA ∧ ¬ allDead (runToEnd p (init setup)).teamB) →
      BattleEvent.battleEnd Winner.Draw ∈ (runToEnd p (init setup)).events ∧
      ∀ w, BattleEvent.battleEnd w ∈ (runToEnd p (init setup)).events → w = Winner.Draw) := by
  have hover := over_runToEnd p (init setup)
  refine ⟨hover, ?_, ?_, ?_⟩
  · have := round_runToEnd p (init setup)
    rw [round_init] at this
    omega
  · intro k
    have := round_runLoop p k (init setup)
    rw [round_init] at this
    omega
  · rintro ⟨hna, hnb⟩
    obtain ⟨h1, h2, h3⟩ := endSound_runToEnd p (init setup) (endSound_init setup)
    have hall : ∀ w, BattleEvent.battleEnd w ∈ (runToEnd p (init setup)).events →
        w = Winner.Draw := by
      intro w hw
      cases w with
      | A => exact absurd (h1 hw) hnb
      | B => exact absurd (h2 hw) hna
      | Draw => rfl
    obtain ⟨w, hw⟩ := h3 hover
    have hwD := hall w hw
    exact ⟨hwD ▸ hw, hall⟩

/-- Witness for C6: a concrete two-fighter battle has non-empty rosters,
really ends, and ends within the round cap. -/
theorem runToEnd_terminates_witness :
    ([exA] ≠ ([] : List Fighter)) ∧ ([exB] ≠ ([] : List Fighter)) ∧
    (runToEnd exP (init ⟨[exA], [exB], none⟩)).over = true ∧
    (runToEnd exP (init ⟨[exA], [exB], none⟩)).round ≤ 30 :=
  ⟨List.cons_ne_nil _ _, List.cons_ne_nil _ _,
   (runToEnd_terminates exP ⟨[exA], [exB], none⟩
      (List.cons_ne_nil _ _) (List.cons_ne_nil _ _)).1,
   (runToEnd_terminates exP ⟨[exA], [exB], none⟩
      (List.cons_ne_nil _ _) (List.cons_ne_nil _ _)).2.1⟩




/-! ## Cooldown discipline (C7) -/

theorem alGet_map_sub (s : String) (m : List (String × Nat)) :
    alGet s (m.map (fun e => (e.1, e.2 - 1))) = (alGet s m).map (fun v => v - 1) := by
  induction m with
  | nil => rfl
  | cons e rest ih =>
    obtain ⟨k0, v0⟩ := e
    by_cases h : k0 = s <;> simp [alGet, h, ih]

theorem alGet_map_reduce (a : String) (M : List (String × List (String × Nat))) :
    alGet a (M.map (fun kv => (kv.1, kv.2.map (fun e => (e.1, e.2 - 1))))) =
      (alGet a M).map (fun m => m.map (fun e => (e.1, e.2 - 1))) := by
  induction M with
  | nil => rfl
  | cons e rest ih =>
    obtain ⟨k0, v0⟩ := e
    by_cases h : k0 = a <;> simp [alGet, h, ih]

theorem cdOf_congr (st st' : BattleState) (h : st'.skillCooldowns = st.skillCooldowns)
    (a s : String) : cdOf st' a s = cdOf st a s := by
  unfold cdOf getCooldown
  rw [h]

theorem castsOf_congr (st st' : BattleState) (h : st'.statsById = st.statsById)
    (a s : String) : castsOf st' a s = castsOf st a s := by
  unfold castsOf
  rw [h]

theorem cdOf_reduceCooldowns (st : BattleState) (a s : String) :
    cdOf (reduceCooldowns st) a s = cdOf st a s - 1 := by
  unfold cdOf getCooldown reduceCooldowns
  dsimp only
  rw [alGet_map_reduce a st.skillCooldowns]
  cases alGet a st.skillCooldowns with
  | none => rfl
  | some m =>
    show (alGet s (m.map (fun e => (e.1, e.2 - 1)))).getD 0 = (alGet s m).getD 0 - 1
    rw [alGet_map_sub s m]
    cases alGet s m with
    | none => rfl
    | some v => rfl

theorem castsIn_alUpdate (m : List (String × UnitStats)) (k : String) (g : UnitStats → UnitStats)
    (a s : String) (hg : ∀ u, (g u).skillCastsById = u.skillCastsById) :
    castsIn (alUpdate k g m) a s = castsIn m a s := by
  unfold castsIn
  by_cases h : a = k
  · subst h
    rw [alGet_alUpdate_self]
    cases alGet a m with
    | none => rfl
    | some u => simp [hg]
  · rw [alGet_alUpdate_ne k a g m h]

theorem castsIn_upd_damageDealt (m : List (String × UnitStats)) (k : String)
    (v : UnitStats → Nat) (a s : String) :
    castsIn (alUpdate k (fun u => { u with damageDealt := v u }) m) a s = castsIn m a s :=
  castsIn_alUpdate m k _ a s (fun _ => rfl)

theorem castsIn_upd_damageTaken (m : List (String × UnitStats)) (k : String)
    (v : UnitStats → Nat) (a s : String) :
    castsIn (alUpdate k (fun u => { u with damageTaken := v u }) m) a s = castsIn m a s :=
  castsIn_alUpdate m k _ a s (fun _ => rfl)

theorem castsIn_upd_kills (m : List (String × UnitStats)) (k : String)
    (v : UnitStats → Nat) (a s : String) :
    castsIn (alUpdate k (fun u => { u with kills := v u }) m) a s = castsIn m a s :=
  castsIn_alUpdate m k _ a s (fun _ => rfl)

theorem castsIn_upd_healingDone (m : List (String × UnitStats)) (k : String)
    (v : UnitStats → Nat) (a s : String) :
    castsIn (alUpdate k (fun u => { u with healingDone := v u }) m) a s = castsIn m a s :=
  castsIn_alUpdate m k _ a s (fun _ => rfl)

theorem castsIn_upd_shieldsApplied (m : List (String × UnitStats)) (k : String)
    (v : UnitStats → Nat) (a s : String) :
    castsIn (alUpdate k (fun u => { u with shieldsApplied := v u }) m) a s = castsIn m a s :=
  castsIn_alUpdate m k _ a s (fun _ => rfl)

theorem castsOf_dealDamage (st : BattleState) (x y : String) (n : Nat) (a s : String) :
    castsOf (dealDamage st x y n) a s = castsOf st a s := by
  unfold castsOf
  unfold dealDamage
  cases hfind : findFighter st y with
  | none => rfl
  | some f =>
    try dsimp only
    split_ifs <;>
      simp only [emitE, statUpdate, mapHpFirst_statsById, castsIn_upd_damageDealt,
        castsIn_upd_damageTaken, castsIn_upd_kills]

theorem castsOf_heal (st : BattleState) (x y : String) (n : Nat) (a s : String) :
    castsOf (heal st x y n) a s = castsOf st a s := by
  unfold castsOf
  unfold heal
  cases hfind : findFighter st y with
  | none => rfl
  | some f =>
    try dsimp only
    split_ifs <;>
      simp only [emitE, statUpdate, mapHpFirst_statsById, castsIn_upd_healingDone]

theorem castsOf_applyShield (st : BattleState) (x y : String) (n : Nat) (a s : String) :
    castsOf (applyShield st x y n) a s = castsOf st a s := by
  unfold castsOf
  unfold applyShield
  cases hfind : findFighter st y with
  | none => rfl
  | some f =>
    try dsimp only
    split_ifs <;>
      simp only [emitE, statUpdate, castsIn_upd_shieldsApplied]

theorem cdOf_setCooldown_self (st : BattleState) (a s : String) (v : Nat) :
    cdOf (setCooldown st a s v) a s = v := by
  unfold cdOf getCooldown setCooldown
  dsimp only
  rw [alGet_alSet_self]
  dsimp only [Option.some_bind]
  rw [alGet_alSet_self]
  rfl

theorem cdOf_setCooldown_ne (st : BattleState) (x y : String) (v : Nat) (a s : String)
    (hne : x ≠ a ∨ y ≠ s) : cdOf (setCooldown st x y v) a s = cdOf st a s := by
  unfold cdOf getCooldown setCooldown
  dsimp only
  by_cases hx : x = a
  · subst hx
    rcases hne with hne | hne
    · exact absurd rfl hne
    · rw [alGet_alSet_self]
      dsimp only [Option.some_bind]
      rw [alGet_alSet_ne _ _ _ _ (fun hh => hne hh.symm)]
      cases hm : alGet x st.skillCooldowns with
      | none => rfl
      | some m => rfl
  · rw [alGet_alSet_ne _ _ _ _ (fun hh => hx hh.symm)]

theorem castsOf_recordSkillCast_ne (st : BattleState) (x y a s : String)
    (hne : x ≠ a ∨ y ≠ s) : castsOf (recordSkillCast st x y) a s = castsOf st a s := by
  unfold castsOf recordSkillCast statUpdate
  dsimp only
  by_cases hx : x = a
  · subst hx
    rcases hne with hne | hne
    · exact absurd rfl hne
    · unfold castsIn
      rw [alGet_alUpdate_self]
      cases alGet x st.statsById with
      | none => rfl
      | some u =>
        show (alGet s (alSet y ((alGet y u.skillCastsById).getD 0 + 1)
            u.skillCastsById)).getD 0 = (alGet s u.skillCastsById).getD 0
        rw [alGet_alSet_ne _ _ _ _ (fun hh => hne hh.symm)]
  · unfold castsIn
    rw [alGet_alUpdate_ne _ _ _ _ (fun hh => hx hh.symm)]

theorem castsOf_recordSkillCast_self (st : BattleState) (x y : String)
    (h : (alGet x st.statsById).isSome) :
    castsOf (recordSkillCast st x y) x y = castsOf st x y + 1 := by
  unfold castsOf recordSkillCast statUpdate castsIn
  dsimp only
  rw [alGet_alUpdate_self]
  cases hu : alGet x st.statsById with
  | none => rw [hu] at h; cases h
  | some u =>
    show (alGet y (alSet y ((alGet y u.skillCastsById).getD 0 + 1)
        u.skillCastsById)).getD 0 = (alGet y u.skillCastsById).getD 0 + 1
    rw [alGet_alSet_self]
    rfl

theorem pickSkill_cd_zero (p : BattleParams) (st : BattleState) (actor : Fighter) (sid : String)
    (h : pickSkill p st actor = some sid) : cdOf st actor.id sid = 0 := by
  unfold pickSkill at h
  unfold cdOf
  repeat' (first | split at h | dsimp only at h)
  all_goals try cases h
  all_goals omega

theorem pickSkill_blocked (p : BattleParams) (st : BattleState) (actor : Fighter)
    (s : String) (rest : List String) (hskills : actor.skills = s :: rest)
    (hcd : 0 < cdOf st actor.id s) : pickSkill p st actor = none := by
  cases hpick : pickSkill p st actor with
  | none => rfl
  | some sid =>
    have hz := pickSkill_cd_zero p st actor sid hpick
    have hsid : sid = s := by
      have hp2 := hpick
      simp only [pickSkill, hskills] at hp2
      repeat' split at hp2
      all_goals cases hp2 <;> rfl
    rw [hsid] at hz
    unfold cdOf at hz hcd
    omega

theorem castSkill_preserve {Q : BattleState → Prop}
    (hdeal : ∀ t x y n, Q t → Q (dealDamage t x y n))
    (hheal : ∀ t x y n, Q t → Q (heal t x y n))
    (hshield : ∀ t x y n, Q t → Q (applyShield t x y n))
    (hbuff : ∀ t x y b k d e, Q t → Q (addBuff t x y b k d e))
    (st : BattleState) (actor : Fighter) (skill : Skill) (st' : BattleState)
    (hc : castSkill st actor skill = some st')
    (hbase : Q (if 0 < (max 0 ⌊(skill.cooldown.getD 0 : ℚ)⌋).toNat then
      setCooldown (recordSkillCast st actor.id skill.id) actor.id skill.id
        ((max 0 ⌊(skill.cooldown.getD 0 : ℚ)⌋).toNat)
      else recordSkillCast st actor.id skill.id)) :
    Q st' := by
  unfold castSkill at hc
  dsimp only at hc
  by_cases hempty : (resolveSkillTargets st actor skill).isEmpty
  · rw [if_pos hempty] at hc
    cases hc
  · rw [if_neg hempty] at hc
    rcases Option.some_inj.mp hc with rfl
    try dsimp only
    revert hbase
    generalize (if 0 < (max 0 ⌊(skill.cooldown.getD 0 : ℚ)⌋).toNat then
        setCooldown (recordSkillCast st actor.id skill.id) actor.id skill.id
          ((max 0 ⌊(skill.cooldown.getD 0 : ℚ)⌋).toNat)
      else recordSkillCast st actor.id skill.id) = base
    intro hbase
    cases hfx : skill.effect <;> simp only [hfx]
    · exact foldl_preserve _ (fun u x hq => hdeal _ _ _ _ hq) _ _ hbase
    · exact foldl_preserve _ (fun u x hq => hheal _ _ _ _ hq) _ _ hbase
    · exact foldl_preserve _ (fun u x hq => hshield _ _ _ _ hq) _ _ hbase
    · split_ifs <;>
        first
          | exact foldl_preserve _ (fun u x hq => hshield _ _ _ _ hq) _ _
              (foldl_preserve _ (fun u x hq => hbuff _ _ _ _ _ _ _ hq) _ _ hbase)
          | exact foldl_preserve _ (fun u x hq => hshield _ _ _ _ hq) _ _ hbase
          | exact foldl_preserve _ (fun u x hq => hbuff _ _ _ _ _ _ _ hq) _ _ hbase
          | exact hbase
    · exact foldl_preserve _ (fun u x hq => hbuff _ _ _ _ _ _ _ hq) _ _ hbase

theorem castSkill_frame (st : BattleState) (actor : Fighter) (skill : Skill) (st' : BattleState)
    (a s : String) (hc : castSkill st actor skill = some st')
    (hne : actor.id ≠ a ∨ skill.id ≠ s) :
    castsOf st' a s = castsOf st a s ∧ cdOf st' a s = cdOf st a s := by
  have h1 : castsOf (recordSkillCast st actor.id skill.id) a s = castsOf st a s ∧
      cdOf (recordSkillCast st actor.id skill.id) a s = cdOf st a s :=
    ⟨castsOf_recordSkillCast_ne st actor.id skill.id a s hne, cdOf_congr st _ rfl a s⟩
  refine @castSkill_preserve
    (fun t => castsOf t a s = castsOf st a s ∧ cdOf t a s = cdOf st a s)
    ?_ ?_ ?_ ?_ st actor skill st' hc ?_
  · rintro t x y n ⟨hh1, hh2⟩
    exact ⟨(castsOf_dealDamage t x y n a s).trans hh1,
      (cdOf_congr t _ (dealDamage_skillCooldowns t x y n) a s).trans hh2⟩
  · rintro t x y n ⟨hh1, hh2⟩
    exact ⟨(castsOf_heal t x y n a s).trans hh1,
      (cdOf_congr t _ (heal_skillCooldowns t x y n) a s).trans hh2⟩
  · rintro t x y n ⟨hh1, hh2⟩
    exact ⟨(castsOf_applyShield t x y n a s).trans hh1,
      (cdOf_congr t _ (applyShield_skillCooldowns t x y n) a s).trans hh2⟩
  · rintro t x y b k d e ⟨hh1, hh2⟩
    exact ⟨(castsOf_congr t _ rfl a s).trans hh1, (cdOf_congr t _ rfl a s).trans hh2⟩
  · split_ifs
    · exact ⟨(castsOf_congr _ _ rfl a s).trans h1.1,
        (cdOf_setCooldown_ne _ actor.id skill.id _ a s hne).trans h1.2⟩
    · exact h1

theorem castSkill_cast_effect (st : BattleState) (actor : Fighter) (skill : Skill)
    (st' : BattleState) (hc : castSkill st actor skill = some st')
    (hC : 1 ≤ configuredCooldown skill) :
    cdOf st' actor.id skill.id = configuredCooldown skill ∧
      ((alGet actor.id st.statsById).isSome →
        castsOf st' actor.id skill.id = castsOf st actor.id skill.id + 1) := by
  unfold configuredCooldown at hC ⊢
  have hmain : castsOf st' actor.id skill.id =
      castsOf (recordSkillCast st actor.id skill.id) actor.id skill.id ∧
      cdOf st' actor.id skill.id = (max 0 ⌊(skill.cooldown.getD 0 : ℚ)⌋).toNat := by
    refine @castSkill_preserve
      (fun t => castsOf t actor.id skill.id =
          castsOf (recordSkillCast st actor.id skill.id) actor.id skill.id ∧
        cdOf t actor.id skill.id = (max 0 ⌊(skill.cooldown.getD 0 : ℚ)⌋).toNat)
      ?_ ?_ ?_ ?_ st actor skill st' hc ?_
    · rintro t x y n ⟨hh1, hh2⟩
      exact ⟨(castsOf_dealDamage t x y n _ _).trans hh1,
        (cdOf_congr t _ (dealDamage_skillCooldowns t x y n) _ _).trans hh2⟩
    · rintro t x y n ⟨hh1, hh2⟩
      exact ⟨(castsOf_heal t x y n _ _).trans hh1,
        (cdOf_congr t _ (heal_skillCooldowns t x y n) _ _).trans hh2⟩
    · rintro t x y n ⟨hh1, hh2⟩
      exact ⟨(castsOf_applyShield t x y n _ _).trans hh1,
        (cdOf_congr t _ (applyShield_skillCooldowns t x y n) _ _).trans hh2⟩
    · rintro t x y b k d e ⟨hh1, hh2⟩
      exact ⟨(castsOf_congr t _ rfl _ _).trans hh1, (cdOf_congr t _ rfl _ _).trans hh2⟩
    · rw [if_pos (by omega)]
      exact ⟨castsOf_congr _ _ rfl _ _, cdOf_setCooldown_self _ actor.id skill.id _⟩
  exact ⟨hmain.2, fun hs =>
    hmain.1.trans (castsOf_recordSkillCast_self st actor.id skill.id hs)⟩

theorem castsOf_finish (st : BattleState) (w : Winner) (a s : String) :
    castsOf (finish st w) a s = castsOf st a s := by
  unfold finish
  split_ifs <;> rfl

theorem cdOf_finish (st : BattleState) (w : Winner) (a s : String) :
    cdOf (finish st w) a s = cdOf st a s := by
  unfold finish
  split_ifs <;> rfl

theorem castsOf_checkBattleEnd (st : BattleState) (a s : String) :
    castsOf (checkBattleEnd st) a s = castsOf st a s := by
  unfold checkBattleEnd
  dsimp only
  split_ifs <;> first | rfl | exact castsOf_finish _ _ _ _

theorem cdOf_checkBattleEnd (st : BattleState) (a s : String) :
    cdOf (checkBattleEnd st) a s = cdOf st a s := by
  unfold checkBattleEnd
  dsimp only
  split_ifs <;> first | rfl | exact cdOf_finish _ _ _ _

theorem performBasicAttack_frame (p : BattleParams) (st : BattleState) (actor : Fighter)
    (a s : String) :
    castsOf (performBasicAttack p st actor) a s = castsOf st a s ∧
      cdOf (performBasicAttack p st actor) a s = cdOf st a s := by
  unfold performBasicAttack
  cases hsel : selectTarget st actor (enemyTeamOf st actor) with
  | none => exact ⟨rfl, rfl⟩
  | some t =>
    try dsimp only
    exact ⟨(castsOf_dealDamage _ _ _ _ a s).trans rfl,
      (cdOf_congr _ _ (dealDamage_skillCooldowns _ _ _ _) a s).trans rfl⟩

theorem performAction_frame (p : BattleParams)
    (hconsist : ∀ k sk, alGet k p.skillMap = some sk → sk.id = k)
    (st : BattleState) (actor : Fighter) (a s : String) (hcd : 1 ≤ cdOf st a s) :
    castsOf (performAction p st actor) a s = castsOf st a s ∧
      cdOf (performAction p st actor) a s = cdOf st a s := by
  unfold performAction
  cases hp1 : pickSkill p st actor with
  | none => exact performBasicAttack_frame p st actor a s
  | some sid =>
    try dsimp only
    cases hp2 : alGet sid p.skillMap with
    | none => exact performBasicAttack_frame p st actor a s
    | some skill =>
      try dsimp only
      cases hp3 : castSkill st actor skill with
      | none => exact performBasicAttack_frame p st actor a s
      | some st' =>
        refine castSkill_frame st actor skill st' a s hp3 ?_
        by_cases hia : actor.id = a
        · right
          intro hss
          have hz := pickSkill_cd_zero p st actor sid hp1
          have hskid : skill.id = sid := hconsist sid skill hp2
          rw [hia, ← hskid, hss] at hz
          omega
        · exact Or.inl hia

theorem actStep_frame (p : BattleParams)
    (hconsist : ∀ k sk, alGet k p.skillMap = some sk → sk.id = k)
    (st : BattleState) (r : Side × Nat) (a s : String) (hcd : 1 ≤ cdOf st a s) :
    castsOf (actStep p st r) a s = castsOf st a s ∧
      cdOf (actStep p st r) a s = cdOf st a s := by
  unfold actStep
  try dsimp only
  split_ifs with h1
  · exact ⟨rfl, rfl⟩
  · cases hr : refGet st r with
    | none => exact ⟨rfl, rfl⟩
    | some actor =>
      try dsimp only
      split_ifs with h2
      · exact ⟨rfl, rfl⟩
      · have he : cdOf (emitE st (BattleEvent.actorTurn st.round actor.id)) a s = cdOf st a s :=
          cdOf_congr st _ rfl a s
        have hact := performAction_frame p hconsist
          (emitE st (BattleEvent.actorTurn st.round actor.id)) actor a s (he ▸ hcd)
        refine ⟨?_, ?_⟩
        · rw [castsOf_checkBattleEnd, hact.1]
          exact castsOf_congr st _ rfl a s
        · rw [cdOf_checkBattleEnd, hact.2, he]

theorem actFold_frame (p : BattleParams)
    (hconsist : ∀ k sk, alGet k p.skillMap = some sk → sk.id = k)
    (l : List (Side × Nat)) (st : BattleState) (a s : String) (hcd : 1 ≤ cdOf st a s) :
    castsOf (l.foldl (actStep p) st) a s = castsOf st a s ∧
      cdOf (l.foldl (actStep p) st) a s = cdOf st a s := by
  refine @foldl_preserve _
    (fun t => castsOf t a s = castsOf st a s ∧ cdOf t a s = cdOf st a s)
    (actStep p) ?_ l st ⟨rfl, rfl⟩
  rintro t r ⟨h1, h2⟩
  have hstep := actStep_frame p hconsist t r a s (by omega)
  exact ⟨hstep.1.trans h1, hstep.2.trans h2⟩

theorem preRound_frame (st0 : BattleState) (e : BattleEvent) (r : Nat) (a s : String) :
    castsOf (reduceCooldowns (tickDots (buffsOnRoundStart (emitE st0 e) r))) a s
        = castsOf st0 a s ∧
      cdOf (reduceCooldowns (tickDots (buffsOnRoundStart (emitE st0 e) r))) a s
        = cdOf st0 a s - 1 := by
  have h2 : castsOf (buffsOnRoundStart (emitE st0 e) r) a s = castsOf st0 a s :=
    castsOf_congr st0 _ rfl a s
  have h2cd : cdOf (buffsOnRoundStart (emitE st0 e) r) a s = cdOf st0 a s :=
    cdOf_congr st0 _ rfl a s
  have h3 : castsOf (tickDots (buffsOnRoundStart (emitE st0 e) r)) a s = castsOf st0 a s ∧
      cdOf (tickDots (buffsOnRoundStart (emitE st0 e) r)) a s = cdOf st0 a s := by
    unfold tickDots
    refine @foldl_preserve _
      (fun t => castsOf t a s = castsOf st0 a s ∧ cdOf t a s = cdOf st0 a s)
      _ ?_ _ _ ⟨h2, h2cd⟩
    rintro t x ⟨hh1, hh2⟩
    exact ⟨(castsOf_dealDamage _ _ _ _ a s).trans hh1,
      (cdOf_congr _ _ (dealDamage_skillCooldowns _ _ _ _) a s).trans hh2⟩
  refine ⟨(castsOf_congr _ _ rfl a s).trans h3.1, ?_⟩
  rw [cdOf_reduceCooldowns, h3.2]

theorem drawWrap_frame (X : BattleState) (a s : String) (c v : Nat)
    (h1 : castsOf X a s = c) (h2 : cdOf X a s = v) :
    castsOf (if !X.over && 30 ≤ X.round then finish X Winner.Draw else X) a s = c ∧
      cdOf (if !X.over && 30 ≤ X.round then finish X Winner.Draw else X) a s = v := by
  split_ifs with h
  · exact ⟨(castsOf_finish _ _ a s).trans h1, (cdOf_finish _ _ a s).trans h2⟩
  · exact ⟨h1, h2⟩

theorem stepRound_cooldown (p : BattleParams)
    (hconsist : ∀ k sk, alGet k p.skillMap = some sk → sk.id = k)
    (st : BattleState) (a s : String) (h2 : 2 ≤ cdOf st a s) :
    castsOf (stepRound p st) a s = castsOf st a s ∧
      (cdOf (stepRound p st) a s = cdOf st a s - 1 ∨
        cdOf (stepRound p st) a s = cdOf st a s) := by
  by_cases hover : st.over = true
  · unfold stepRound
    rw [if_pos hover]
    exact ⟨rfl, Or.inr rfl⟩
  · have hcore : castsOf (stepRound p st) a s = castsOf st a s ∧
        cdOf (stepRound p st) a s = cdOf st a s - 1 := by
      unfold stepRound
      rw [if_neg hover]
      try dsimp only
      have hpre := preRound_frame { st with round := st.round + 1 }
        (BattleEvent.roundStart (st.round + 1))
        ((emitE { st with round := st.round + 1 }
          (BattleEvent.roundStart (st.round + 1))).round) a s
      have hv2 : cdOf st a s = cdOf { st with round := st.round + 1 } a s := rfl
      have hc2 : castsOf st a s = castsOf { st with round := st.round + 1 } a s := rfl
      have hcd1 : 1 ≤ cdOf (reduceCooldowns (tickDots (buffsOnRoundStart
          (emitE { st with round := st.round + 1 } (BattleEvent.roundStart (st.round + 1)))
          (emitE { st with round := st.round + 1 }
            (BattleEvent.roundStart (st.round + 1))).round))) a s := by
        rw [hpre.2, ← hv2]
        omega
      have hfold := actFold_frame p hconsist
        (actorOrder (reduceCooldowns (tickDots (buffsOnRoundStart
          (emitE { st with round := st.round + 1 } (BattleEvent.roundStart (st.round + 1)))
          (emitE { st with round := st.round + 1 }
            (BattleEvent.roundStart (st.round + 1))).round))))
        (reduceCooldowns (tickDots (buffsOnRoundStart
          (emitE { st with round := st.round + 1 } (BattleEvent.roundStart (st.round + 1)))
          (emitE { st with round := st.round + 1 }
            (BattleEvent.roundStart (st.round + 1))).round))) a s hcd1
      exact drawWrap_frame _ a s _ _
        (hfold.1.trans (hpre.1.trans hc2.symm))
        (hfold.2.trans (hpre.2.trans (by rw [← hv2])))
    exact ⟨hcore.1, Or.inl hcore.2⟩

theorem stepRound_iter_cooldown (p : BattleParams)
    (hconsist : ∀ k sk, alGet k p.skillMap = some sk → sk.id = k)
    (a s : String) : ∀ (k : Nat) (st : BattleState), k < cdOf st a s →
    castsOf ((stepRound p)^[k] st) a s = castsOf st a s ∧
      cdOf st a s - k ≤ cdOf ((stepRound p)^[k] st) a s := by
  intro k
  induction k with
  | zero => exact fun st _ => ⟨rfl, Nat.le_refl _⟩
  | succ m ih =>
    intro st hk
    have hW := stepRound_cooldown p hconsist st a s (by omega)
    have hk' : m < cdOf (stepRound p st) a s := by
      rcases hW.2 with h | h <;> omega
    have hih := ih (stepRound p st) hk'
    rw [Function.iterate_succ_apply]
    refine ⟨hih.1.trans hW.1, ?_⟩
    rcases hW.2 with h | h <;> omega

/-- C7: cooldown discipline. In a rule table whose keys match the skill ids
it stores: (1) a round start (`reduceCooldowns`) drops every stored cooldown
by 1, floored at 0; (2) `pickSkill` only returns a skill whose stored
cooldown is 0; (3) a positive cooldown on the actor's (only inspected) head
skill forces `pickSkill` to return none; (4) a successful cast of a skill
with configured cooldown `C ≥ 1` leaves the caster's cooldown for it at `C`
and bumps the caster's recorded cast count for it by one; (5) while a
cooldown is positive it is not touched for the rest of the round's actor
loop and the recorded cast count stays constant; (6) hence from any state in
which an actor's cooldown for a skill is `c`, the recorded cast count for
that pair is unchanged by the next `k < c` whole rounds — after a cast in
round `r` the same actor cannot cast that skill again before round
`r + C`. -/
theorem cooldown_discipline (p : BattleParams)
    (hconsist : ∀ k sk, alGet k p.skillMap = some sk → sk.id = k)
    (st : BattleState) (actor : Fighter) (skill : Skill) (st' : BattleState) (sid : String) :
    (∀ t a s, cdOf (reduceCooldowns t) a s = cdOf t a s - 1) ∧
    (pickSkill p st actor = some sid → cdOf st actor.id sid = 0) ∧
    (∀ s rest, actor.skills = s :: rest → 0 < cdOf st actor.id s →
      pickSkill p st actor = none) ∧
    (castSkill st actor skill = some st' → 1 ≤ configuredCooldown skill →
      cdOf st' actor.id skill.id = configuredCooldown skill ∧
      ((alGet actor.id st.statsById).isSome →
        castsOf st' actor.id skill.id = castsOf st actor.id skill.id + 1)) ∧
    (∀ (l : List (Side × Nat)) t a s, 1 ≤ cdOf t a s →
      castsOf (l.foldl (actStep p) t) a s = castsOf t a s ∧
      cdOf (l.foldl (actStep p) t) a s = cdOf t a s) ∧
    (∀ k t a s, k < cdOf t a s →
      castsOf ((stepRound p)^[k] t) a s = castsOf t a s) :=
  ⟨fun t a s => cdOf_reduceCooldowns t a s,
   fun h => pickSkill_cd_zero p st actor sid h,
   fun s rest hsk hcd => pickSkill_blocked p st actor s rest hsk hcd,
   fun hc hC => castSkill_cast_effect st actor skill st' hc hC,
   fun l t a s h => actFold_frame p hconsist l t a s h,
   fun k t a s h => (stepRound_iter_cooldown p hconsist a s k t h).1⟩

/-- Witness for C7: the fixture table maps `sk1` to a skill whose id is
`sk1`, and the decrement law evaluates on the fixture battle. -/
theorem cooldown_discipline_witness :
    (∀ k sk, alGet k exP.skillMap = some sk → sk.id = k) ∧
    cdOf (reduceCooldowns exSkillSt) "w" "sk1" = cdOf exSkillSt "w" "sk1" - 1 := by
  have hconsist : ∀ k sk, alGet k exP.skillMap = some sk → sk.id = k := by
    intro k sk h
    simp only [exP, alGet] at h
    split at h
    · rename_i heq
      cases h
      subst heq
      rfl
    · cases h
  exact ⟨hconsist,
    (cooldown_discipline exP hconsist exSkillSt exCaster exSkill1 exSkillSt "sk1").1
      exSkillSt "w" "sk1"⟩



end Battle
